import Mathlib

/-!
# Voltage scale table of the GM20B volt subdev

Shallow embedding of `drivers/gpu/drm/nouveau/nvkm/subdev/volt/gm20b.c`:
the two coefficient tables, `speedo_to_vmin`, the thermal table and the
constructor `gm20b_volt_ctor`, which fills `priv->scale_table[zone][step]`
and copies the row of zone 0 into `volt->vid`.

Integers of the C code (`int`) are `Int`.  The constructor only compares and
copies them, it does no arithmetic of its own, so no wrap-around can occur in
the embedded code.  Loop counters and array sizes are `Nat`.

`gk20a_volt_round_voltage`, `gk20a_volt_calc_voltage` (gk20a.c) and
`MAX_THERMAL_LIMITS` (gk20a.h) are used by the constructor but are not part of
this file of the driver; the constructor takes them as parameters.
-/

namespace Gm20bVolt

/-! ## Data -/

/-- The `struct cvb_coef`: six signed coefficients `c0 .. c5`. -/
structure cvb_coef where
  c0 : Int
  c1 : Int
  c2 : Int
  c3 : Int
  c4 : Int
  c5 : Int
deriving DecidableEq

/-- The `struct nvkm_voltage`: one cell of a voltage table. -/
structure nvkm_voltage where
  uv : Int
  vid : Int
deriving DecidableEq

/-- The table `gm20b_na_cvb_coef[]` (lines 33-48). -/
def gm20b_na_cvb_coef : List cvb_coef :=
  [ ⟨ 814294, 8144, -940, 808, -21583, 226⟩,
    ⟨ 856185, 8144, -940, 808, -21583, 226⟩,
    ⟨ 898077, 8144, -940, 808, -21583, 226⟩,
    ⟨ 939968, 8144, -940, 808, -21583, 226⟩,
    ⟨ 981860, 8144, -940, 808, -21583, 226⟩,
    ⟨1023751, 8144, -940, 808, -21583, 226⟩,
    ⟨1065642, 8144, -940, 808, -21583, 226⟩,
    ⟨1107534, 8144, -940, 808, -21583, 226⟩,
    ⟨1149425, 8144, -940, 808, -21583, 226⟩,
    ⟨1191317, 8144, -940, 808, -21583, 226⟩,
    ⟨1233208, 8144, -940, 808, -21583, 226⟩,
    ⟨1275100, 8144, -940, 808, -21583, 226⟩,
    ⟨1316991, 8144, -940, 808, -21583, 226⟩ ]

/-- The table `gm20b_cvb_coef[]` (lines 50-64).  Each initialiser names three
values; C zero-fills the members `c3 .. c5`. -/
def gm20b_cvb_coef : List cvb_coef :=
  [ ⟨1786666,  -85625, 1632, 0, 0, 0⟩,
    ⟨1846729,  -87525, 1632, 0, 0, 0⟩,
    ⟨1910480,  -89425, 1632, 0, 0, 0⟩,
    ⟨1977920,  -91325, 1632, 0, 0, 0⟩,
    ⟨2049049,  -93215, 1632, 0, 0, 0⟩,
    ⟨2122872,  -95095, 1632, 0, 0, 0⟩,
    ⟨2201331,  -96985, 1632, 0, 0, 0⟩,
    ⟨2283479,  -98885, 1632, 0, 0, 0⟩,
    ⟨2369315, -100785, 1632, 0, 0, 0⟩,
    ⟨2458841, -102685, 1632, 0, 0, 0⟩,
    ⟨2550821, -104555, 1632, 0, 0, 0⟩,
    ⟨2647676, -106455, 1632, 0, 0, 0⟩ ]

/-- The macro `MAX_SPEEDO` (line 66). -/
def MAX_SPEEDO : Int := 4

/-- The table `speedo_to_vmin[MAX_SPEEDO+1]` (lines 68-71). -/
def speedo_to_vmin : List Int :=
  [950000, 840000, 818750, 840000, 810000]

/-- The macro `TEGRA210_GPU_THERM_VFLOOR`, in uV (line 73). -/
def TEGRA210_GPU_THERM_VFLOOR : Int := 950000

/-- The errno `EINVAL`. -/
def EINVAL : Int := 22

/-- The macros of `dt-bindings/thermal/tegra210-trips.h` that the thermal table
is built from.  The header is not part of this file of the driver, so their
values are a parameter. -/
structure tegra210_trips where
  TEGRA210_GPU_DVFS_THERMAL_MIN : Int
  TEGRA210_GPU_DVFS_THERMAL_TRIP_0 : Int
  TEGRA210_GPU_DVFS_THERMAL_TRIP_1 : Int
  TEGRA210_GPU_DVFS_THERMAL_TRIP_2 : Int
  TEGRA210_GPU_DVFS_THERMAL_TRIP_3 : Int

/-- The table `gm20b_thermal_table[]` (lines 80-87); `/` of C truncates. -/
def gm20b_thermal_table (t : tegra210_trips) : List Int :=
  [ Int.tdiv t.TEGRA210_GPU_DVFS_THERMAL_MIN 1000,
    Int.tdiv t.TEGRA210_GPU_DVFS_THERMAL_TRIP_0 1000,
    Int.tdiv t.TEGRA210_GPU_DVFS_THERMAL_TRIP_1 1000,
    Int.tdiv t.TEGRA210_GPU_DVFS_THERMAL_TRIP_2 1000,
    Int.tdiv t.TEGRA210_GPU_DVFS_THERMAL_TRIP_3 1000,
    Int.tdiv t.TEGRA210_GPU_DVFS_THERMAL_TRIP_3 1000 + 1 ]

/-- Read of a constant C array at a signed index: `none` when the index is
outside the array, where C defines no value. -/
def array_read {α : Type} (xs : List α) (i : Int) : Option α :=
  if i < 0 then none else xs[i.toNat]?

/-! ## State -/

/-- The members of `struct gk20a_volt_priv` (with its base `struct nvkm_volt`)
that the constructor writes: `base.vid_nr`, `base.vid[]`, `thermal_table`,
`therm_nr`, `therm_idx` and `scale_table[][]`.  The two arrays are total maps
from indices to cells, so a cell the constructor does not write keeps the
value it had.  The members `vdd`, `vid_get`, `vid_set` and `set_id` are
pointers the constructor stores and never reads back; they are left out. -/
structure gk20a_volt_priv where
  vid_nr : Nat
  vid : Nat → nvkm_voltage
  thermal_table : List Int
  therm_nr : Nat
  therm_idx : Nat
  scale_table : Nat → Nat → nvkm_voltage

/-- The assignment `priv->scale_table[j][i].uv = uv`. -/
def set_uv (priv : gk20a_volt_priv) (j i : Nat) (uv : Int) : gk20a_volt_priv :=
  { priv with scale_table := fun j' i' =>
      if j' = j ∧ i' = i then { priv.scale_table j i with uv := uv }
      else priv.scale_table j' i' }

/-- The assignment `priv->scale_table[j][i].vid = vid`. -/
def set_vid (priv : gk20a_volt_priv) (j i : Nat) (vid : Int) : gk20a_volt_priv :=
  { priv with scale_table := fun j' i' =>
      if j' = j ∧ i' = i then { priv.scale_table j i with vid := vid }
      else priv.scale_table j' i' }

/-- How a loop of the constructor ends: it ran to its end (`next`), it left
the constructor through `return ret;` (`ret`), or it read a constant table
outside its bounds (`fault`). -/
inductive loop_result where
  | fault : loop_result
  | ret (code : Int) (priv : gk20a_volt_priv) : loop_result
  | next (priv : gk20a_volt_priv) : loop_result

/-! ## The constructor -/

/-- The inner loop `for (i = 0; i < volt->vid_nr; i++)` of `gm20b_volt_ctor`
(lines 154-176) for the zone `j`: `n` iterations are left and the counter
is `i`. -/
def vid_loop (round_voltage : Int → Int) (calc_voltage : cvb_coef → Int → Int → Int)
    (coef_table : List cvb_coef) (speedo_val vmin vfloor : Int) (j : Nat) :
    Nat → Nat → gk20a_volt_priv → loop_result
  | 0, _, priv => .next priv
  | n + 1, i, priv =>
    match coef_table[i]? with
    | none => .fault
    | some coef =>
      let ret := calc_voltage coef speedo_val j
      let ret := round_voltage ret
      if ret < 0 then .ret ret priv
      else
        let priv := set_uv priv j i (max ret vmin)
        let priv := set_vid priv j i i
        let priv :=
          if j = 0 ∧ (priv.scale_table j i).uv < vfloor then set_uv priv j i vfloor
          else priv
        vid_loop round_voltage calc_voltage coef_table speedo_val vmin vfloor j n (i + 1) priv

/-- The outer loop `for (j = 0; j < priv->therm_nr; j++)` of `gm20b_volt_ctor`
(lines 153-177): `n` iterations are left and the counter is `j`. -/
def therm_loop (round_voltage : Int → Int) (calc_voltage : cvb_coef → Int → Int → Int)
    (coef_table : List cvb_coef) (speedo_val vmin vfloor : Int) :
    Nat → Nat → gk20a_volt_priv → loop_result
  | 0, _, priv => .next priv
  | n + 1, j, priv =>
    match vid_loop round_voltage calc_voltage coef_table speedo_val vmin vfloor j
        priv.vid_nr 0 priv with
    | .next priv =>
      therm_loop round_voltage calc_voltage coef_table speedo_val vmin vfloor n (j + 1) priv
    | r => r

/-- The choice of the coefficient table (lines 123-130): the table and its
`ARRAY_SIZE`, which becomes `volt->vid_nr`. -/
def select_coef_table (speedo_id : Int) : List cvb_coef × Nat :=
  if speedo_id ≥ 1 then (gm20b_na_cvb_coef, gm20b_na_cvb_coef.length)
  else (gm20b_cvb_coef, gm20b_cvb_coef.length)

/-- The constructor `gm20b_volt_ctor` from line 109 on, that is once
`nvkm_volt_create` has returned 0 and handed over the object `priv`.

Parameters: `MAX_THERMAL_LIMITS` (gk20a.h), `round_voltage` for
`gk20a_volt_round_voltage(priv, _)`, `calc_voltage` for
`gk20a_volt_calc_voltage(priv, _, _, _)`, the trip macros, and
`plat->gpu_speedo_id`, `plat->gpu_speedo_value`.

The result is the returned `int` with the object as the constructor leaves
it, or `none` when the constructor reads `speedo_to_vmin` or the coefficient
table outside its bounds.  The calls `regulator_get_voltage`, `nv_info`,
`nv_debug`, `nv_error` and `gk20a_volt_dvfs_cdev_register` write none of the
members of the state and are left out. -/
def gm20b_volt_ctor (MAX_THERMAL_LIMITS : Int) (round_voltage : Int → Int)
    (calc_voltage : cvb_coef → Int → Int → Int) (trips : tegra210_trips)
    (gpu_speedo_id gpu_speedo_value : Int) (priv : gk20a_volt_priv) :
    Option (Int × gk20a_volt_priv) :=
  if gpu_speedo_id > MAX_SPEEDO then some (-EINVAL, priv)
  else
    let priv := { priv with thermal_table := gm20b_thermal_table trips }
    let speedo_id := gpu_speedo_id
    let coef_table := (select_coef_table speedo_id).1
    let priv := { priv with vid_nr := (select_coef_table speedo_id).2 }
    match array_read speedo_to_vmin gpu_speedo_id with
    | none => none
    | some uv =>
      let vmin := round_voltage uv
      if vmin < 0 then some (-EINVAL, priv)
      else
        let vfloor := round_voltage TEGRA210_GPU_THERM_VFLOOR
        if vfloor < 0 then some (vfloor, priv)
        else
          let priv := { priv with therm_nr := (gm20b_thermal_table trips).length - 1 }
          if (priv.therm_nr : Int) > MAX_THERMAL_LIMITS then some (-EINVAL, priv)
          else
            let speedo_val := gpu_speedo_value
            let priv := { priv with therm_idx := 0 }
            match therm_loop round_voltage calc_voltage coef_table speedo_val vmin vfloor
                priv.therm_nr 0 priv with
            | .fault => none
            | .ret ret priv => some (ret, priv)
            | .next priv =>
              let priv := { priv with vid := priv.scale_table priv.therm_idx }
              some (0, priv)

/-! ## The two helpers of gk20a.c, after the specification -/

/-- Modelled from the spec: the legacy branch of `gk20a_volt_calc_voltage`
(gk20a.c, not part of this file of the driver).  The specification gives
"uv = c0 + c1*speedo + c2*speedo^2, scaled by a fixed divisor" and does not
give the divisor, which is the parameter `s_scale`: every factor `speedo` is
divided by it, so the constant term stays in microvolts and a speedo value of
0 yields `c0`.  The zone does not enter the legacy curve. -/
def legacy_calc_voltage (s_scale : Int) (coef : cvb_coef) (speedo : Int) (_therm_idx : Int) :
    Int :=
  coef.c0 + Int.tdiv (coef.c1 * speedo) s_scale
    + Int.tdiv (coef.c2 * speedo * speedo) (s_scale * s_scale)

/-- Modelled from the spec: `gk20a_volt_calc_voltage` (gk20a.c, not part of
this file of the driver) as the Curve Evaluator of the specification,
"evaluate(coef, freq_index, speedo_value)", a "pure function of inputs" into
which the zone enters "not via a separate temperature term".  The polynomial
is the parameter `evaluate`, since the specification leaves the form of the
extended model open; the frequency index is the position of `coef` in its
table.  The constructor hands the zone over as the last argument, and the
evaluator of the specification has no use for it. -/
def spec_calc_voltage (evaluate : cvb_coef → Int → Int) (coef : cvb_coef) (speedo : Int)
    (_therm_idx : Int) : Int :=
  evaluate coef speedo

/-- Modelled from the spec: `gk20a_volt_round_voltage` (gk20a.c, not part of
this file of the driver), "mapping to the nearest equal-or-higher entry in a
fixed, externally-supplied discrete voltage-step list", which "fails with
OutOfRange if uv exceeds the highest supported step".  The list is `steps`;
failure is the negative value `-EINVAL`, as the constructor tests `ret < 0`. -/
def step_round_voltage (steps : List Int) (uv : Int) : Int :=
  match (steps.filter (fun v => uv ≤ v)).min? with
  | some v => v
  | none => -EINVAL

/-- An object as `nvkm_volt_create` hands it over: zero-filled. -/
def priv_zero : gk20a_volt_priv :=
  { vid_nr := 0, vid := fun _ => ⟨0, 0⟩, thermal_table := [], therm_nr := 0,
    therm_idx := 0, scale_table := fun _ _ => ⟨0, 0⟩ }

/-! ## Predicates on what the loops leave behind -/

/-- The value of `table->uv` at the end of the loop body (lines 163-172), from
the rounded voltage `q`. -/
def built_uv (q vmin vfloor : Int) (j : Nat) : Int :=
  if j = 0 ∧ max q vmin < vfloor then vfloor else max q vmin

/-- The members other than `scale_table` are the same in both objects. -/
def same_header (p p' : gk20a_volt_priv) : Prop :=
  p'.vid_nr = p.vid_nr ∧ p'.vid = p.vid ∧ p'.thermal_table = p.thermal_table ∧
    p'.therm_nr = p.therm_nr ∧ p'.therm_idx = p.therm_idx

/-- The cell `(j, k)` of `p'` is the one the loop body builds: the step's
coefficients exist, their voltage rounds without error, and the cell holds the
clamped voltage with `vid = k`. -/
def cell_built (round_voltage : Int → Int) (calc_voltage : cvb_coef → Int → Int → Int)
    (coef_table : List cvb_coef) (speedo_val vmin vfloor : Int)
    (p' : gk20a_volt_priv) (j k : Nat) : Prop :=
  ∃ coef, coef_table[k]? = some coef ∧ 0 ≤ round_voltage (calc_voltage coef speedo_val j) ∧
    p'.scale_table j k =
      ⟨built_uv (round_voltage (calc_voltage coef speedo_val j)) vmin vfloor j, k⟩

/-- The pair `(j, k)` comes before `(jf, kf)` in row-major order. -/
def before (j k jf kf : Nat) : Prop := j < jf ∨ (j = jf ∧ k < kf)

/-- The object after one pass of the loop body at `(j, i)` with the rounded
voltage `q` (lines 163-172). -/
def body (priv : gk20a_volt_priv) (j i : Nat) (q vmin vfloor : Int) : gk20a_volt_priv :=
  let priv := set_uv priv j i (max q vmin)
  let priv := set_vid priv j i i
  if j = 0 ∧ (priv.scale_table j i).uv < vfloor then set_uv priv j i vfloor else priv

/-- Between `p` and `p'` the cells `(j, a) .. (j, b - 1)` were built and
nothing else changed. -/
def row_built (rv : Int → Int) (cv : cvb_coef → Int → Int → Int)
    (ct : List cvb_coef) (s vmin vfloor : Int) (p p' : gk20a_volt_priv) (j a b : Nat) : Prop :=
  same_header p p' ∧
    (∀ k, a ≤ k → k < b → cell_built rv cv ct s vmin vfloor p' j k) ∧
    (∀ j' k, ¬(j' = j ∧ a ≤ k ∧ k < b) → p'.scale_table j' k = p.scale_table j' k)

/-- The postcondition of the inner loop started at column `i` with `n`
iterations left, by the way it ends. -/
def vid_post (rv : Int → Int) (cv : cvb_coef → Int → Int → Int)
    (ct : List cvb_coef) (s vmin vfloor : Int) (p : gk20a_volt_priv) (j i n : Nat) :
    loop_result → Prop
  | .fault => ct.length < i + n
  | .ret c p' => ∃ kf, i ≤ kf ∧ kf < i + n ∧
      (∃ coef, ct[kf]? = some coef ∧ c = rv (cv coef s j)) ∧ c < 0 ∧
      row_built rv cv ct s vmin vfloor p p' j i kf
  | .next p' => row_built rv cv ct s vmin vfloor p p' j i (i + n)

/-- Between `p` and `p'` the cells `(j, k)` with `j0 ≤ j`, `k < vn` that come
before `(jf, kf)` in row-major order were built and nothing else changed. -/
def table_built (rv : Int → Int) (cv : cvb_coef → Int → Int → Int)
    (ct : List cvb_coef) (s vmin vfloor : Int) (vn : Nat) (p p' : gk20a_volt_priv)
    (j0 jf kf : Nat) : Prop :=
  same_header p p' ∧
    (∀ j k, j0 ≤ j → k < vn → before j k jf kf → cell_built rv cv ct s vmin vfloor p' j k) ∧
    (∀ j k, ¬(j0 ≤ j ∧ k < vn ∧ before j k jf kf) → p'.scale_table j k = p.scale_table j k)

/-- The postcondition of the outer loop started at zone `j` with `n`
iterations left, by the way it ends. -/
def therm_post (rv : Int → Int) (cv : cvb_coef → Int → Int → Int)
    (ct : List cvb_coef) (s vmin vfloor : Int) (p : gk20a_volt_priv) (j n : Nat) :
    loop_result → Prop
  | .fault => ct.length < p.vid_nr
  | .ret c p' => ∃ jf kf, j ≤ jf ∧ jf < j + n ∧ kf < p.vid_nr ∧
      (∃ coef, ct[kf]? = some coef ∧ c = rv (cv coef s jf)) ∧ c < 0 ∧
      table_built rv cv ct s vmin vfloor p.vid_nr p p' j jf kf
  | .next p' => table_built rv cv ct s vmin vfloor p.vid_nr p p' j (j + n) 0

/-! ## Stages of the constructor and sample inputs -/

/-- The object once the coefficient table is chosen (line 130). -/
def priv_selected (trips : tegra210_trips) (speedo_id : Int) (priv : gk20a_volt_priv) :
    gk20a_volt_priv :=
  { priv with thermal_table := gm20b_thermal_table trips,
              vid_nr := (select_coef_table speedo_id).2 }

/-- The object when the loops start (line 152). -/
def priv_ready (trips : tegra210_trips) (speedo_id : Int) (priv : gk20a_volt_priv) :
    gk20a_volt_priv :=
  { priv_selected trips speedo_id priv with
      therm_nr := (gm20b_thermal_table trips).length - 1, therm_idx := 0 }

/-- The copy `memcpy(volt->vid, priv->scale_table[priv->therm_idx], ...)`. -/
def copy_row (priv : gk20a_volt_priv) : gk20a_volt_priv :=
  { priv with vid := priv.scale_table priv.therm_idx }

/-- The thermal boundaries of the specification's example, in millidegrees:
`-40, -10, 20, 60, 90` degrees. -/
def demo_trips : tegra210_trips := ⟨-40000, -10000, 20000, 60000, 90000⟩

/-- A regulator with a step every `10000` uV and no upper end: the voltage is
rounded up to the next multiple of 10 mV.  It is monotone non-decreasing. -/
def grid_round_voltage (uv : Int) : Int := 10000 * ((uv + 9999) / 10000)

/-! ## The loops -/

theorem built_uv_eq (q vmin vfloor : Int) (j : Nat) :
    built_uv q vmin vfloor j = if j = 0 then max (max q vmin) vfloor else max q vmin := by
  unfold built_uv
  by_cases hj : j = 0
  · by_cases h : max q vmin < vfloor
    · simp [hj, h, max_eq_right (le_of_lt h)]
    · simp [hj, h, max_eq_left (not_lt.mp h)]
  · simp [hj]

theorem same_header_refl (p : gk20a_volt_priv) : same_header p p :=
  ⟨rfl, rfl, rfl, rfl, rfl⟩

theorem same_header_trans {p q r : gk20a_volt_priv} (h₁ : same_header p q)
    (h₂ : same_header q r) : same_header p r := by
  obtain ⟨a1, a2, a3, a4, a5⟩ := h₁
  obtain ⟨b1, b2, b3, b4, b5⟩ := h₂
  exact ⟨b1.trans a1, b2.trans a2, b3.trans a3, b4.trans a4, b5.trans a5⟩

theorem body_header (p : gk20a_volt_priv) (j i : Nat) (q vmin vfloor : Int) :
    same_header p (body p j i q vmin vfloor) := by
  unfold body
  simp only []
  split <;> exact ⟨rfl, rfl, rfl, rfl, rfl⟩

theorem body_at (p : gk20a_volt_priv) (j i : Nat) (q vmin vfloor : Int) :
    (body p j i q vmin vfloor).scale_table j i = ⟨built_uv q vmin vfloor j, i⟩ := by
  unfold body built_uv
  simp only [set_uv, set_vid, and_self, if_true]
  split <;> simp

theorem body_other (p : gk20a_volt_priv) (j i : Nat) (q vmin vfloor : Int) (j' i' : Nat)
    (h : ¬(j' = j ∧ i' = i)) :
    (body p j i q vmin vfloor).scale_table j' i' = p.scale_table j' i' := by
  unfold body
  simp only [set_uv, set_vid, and_self, if_true]
  split <;> simp [h]

theorem vid_loop_succ (rv : Int → Int) (cv : cvb_coef → Int → Int → Int)
    (ct : List cvb_coef) (s vmin vfloor : Int) (j n i : Nat) (p : gk20a_volt_priv) :
    vid_loop rv cv ct s vmin vfloor j (n + 1) i p =
      match ct[i]? with
      | none => .fault
      | some coef =>
        if rv (cv coef s j) < 0 then .ret (rv (cv coef s j)) p
        else vid_loop rv cv ct s vmin vfloor j n (i + 1) (body p j i (rv (cv coef s j)) vmin vfloor) := by
  rfl

theorem row_built_step (rv : Int → Int) (cv : cvb_coef → Int → Int → Int)
    (ct : List cvb_coef) (s vmin vfloor : Int) (p p' : gk20a_volt_priv) (j i b : Nat)
    (coef : cvb_coef) (hc : ct[i]? = some coef) (hq : 0 ≤ rv (cv coef s j)) (hb : i < b)
    (h : row_built rv cv ct s vmin vfloor (body p j i (rv (cv coef s j)) vmin vfloor) p'
      j (i + 1) b) :
    row_built rv cv ct s vmin vfloor p p' j i b := by
  obtain ⟨hh, hw, hu⟩ := h
  refine ⟨same_header_trans (body_header p j i _ vmin vfloor) hh, ?_, ?_⟩
  · intro k hk hkb
    by_cases hki : k = i
    · subst hki
      refine ⟨coef, hc, hq, ?_⟩
      rw [hu j k (by omega), body_at]
    · exact hw k (by omega) hkb
  · intro j' k hn
    rw [hu j' k (by omega), body_other]
    omega

theorem vid_loop_spec (rv : Int → Int) (cv : cvb_coef → Int → Int → Int)
    (ct : List cvb_coef) (s vmin vfloor : Int) (j : Nat) :
    ∀ (n i : Nat) (p : gk20a_volt_priv),
      vid_post rv cv ct s vmin vfloor p j i n (vid_loop rv cv ct s vmin vfloor j n i p) := by
  intro n
  induction n with
  | zero =>
    intro i p
    refine ⟨same_header_refl p, ?_, ?_⟩
    · intro k h1 h2; omega
    · intro j' k _; rfl
  | succ n ih =>
    intro i p
    rw [vid_loop_succ]
    cases hc : ct[i]? with
    | none =>
      have := List.getElem?_eq_none_iff.mp hc
      show ct.length < i + (n + 1)
      omega
    | some coef =>
      by_cases hq : rv (cv coef s j) < 0
      · simp only [hq, if_true]
        refine ⟨i, le_refl i, by omega, ⟨coef, hc, rfl⟩, hq, same_header_refl p, ?_, ?_⟩
        · intro k h1 h2; omega
        · intro j' k _; rfl
      · simp only [hq, if_false]
        have h := ih (i + 1) (body p j i (rv (cv coef s j)) vmin vfloor)
        revert h
        cases vid_loop rv cv ct s vmin vfloor j n (i + 1)
            (body p j i (rv (cv coef s j)) vmin vfloor) with
        | fault =>
          intro h
          have h' : ct.length < i + 1 + n := h
          show ct.length < i + (n + 1)
          omega
        | ret c p' =>
          intro h
          obtain ⟨kf, h1, h2, h3, h4, h5⟩ := h
          exact ⟨kf, by omega, by omega, h3, h4,
            row_built_step rv cv ct s vmin vfloor p p' j i kf coef hc (not_lt.mp hq)
              (by omega) h5⟩
        | next p' =>
          intro h
          have h' : row_built rv cv ct s vmin vfloor
              (body p j i (rv (cv coef s j)) vmin vfloor) p' j (i + 1) (i + 1 + n) := h
          have e : i + 1 + n = i + (n + 1) := by omega
          rw [e] at h'
          exact row_built_step rv cv ct s vmin vfloor p p' j i (i + (n + 1)) coef hc
            (not_lt.mp hq) (by omega) h'

theorem vid_loop_total (rv : Int → Int) (cv : cvb_coef → Int → Int → Int)
    (ct : List cvb_coef) (s vmin vfloor : Int) (j : Nat) :
    ∀ (n i : Nat) (p : gk20a_volt_priv), i + n ≤ ct.length →
      (∀ k coef, i ≤ k → k < i + n → ct[k]? = some coef → 0 ≤ rv (cv coef s j)) →
      ∃ p', vid_loop rv cv ct s vmin vfloor j n i p = .next p' := by
  intro n
  induction n with
  | zero => intro i p _ _; exact ⟨p, rfl⟩
  | succ n ih =>
    intro i p hlen hok
    rw [vid_loop_succ]
    have hi : i < ct.length := by omega
    have hc : ct[i]? = some ct[i] := List.getElem?_eq_getElem hi
    have hq : ¬ rv (cv ct[i] s j) < 0 := not_lt.mpr (hok i ct[i] (le_refl i) (by omega) hc)
    rw [hc]
    simp only [hq, if_false]
    exact ih (i + 1) _ (by omega) (fun k coef h1 h2 h3 => hok k coef (by omega) (by omega) h3)

theorem therm_loop_zero (rv : Int → Int) (cv : cvb_coef → Int → Int → Int)
    (ct : List cvb_coef) (s vmin vfloor : Int) (j : Nat) (p : gk20a_volt_priv) :
    therm_loop rv cv ct s vmin vfloor 0 j p = .next p := rfl

theorem therm_loop_succ_next (rv : Int → Int) (cv : cvb_coef → Int → Int → Int)
    (ct : List cvb_coef) (s vmin vfloor : Int) (n j : Nat) (p p1 : gk20a_volt_priv)
    (h : vid_loop rv cv ct s vmin vfloor j p.vid_nr 0 p = .next p1) :
    therm_loop rv cv ct s vmin vfloor (n + 1) j p =
      therm_loop rv cv ct s vmin vfloor n (j + 1) p1 := by
  simp [therm_loop, h]

theorem therm_loop_succ_ret (rv : Int → Int) (cv : cvb_coef → Int → Int → Int)
    (ct : List cvb_coef) (s vmin vfloor : Int) (n j : Nat) (p p1 : gk20a_volt_priv) (c : Int)
    (h : vid_loop rv cv ct s vmin vfloor j p.vid_nr 0 p = .ret c p1) :
    therm_loop rv cv ct s vmin vfloor (n + 1) j p = .ret c p1 := by
  simp [therm_loop, h]

theorem therm_loop_succ_fault (rv : Int → Int) (cv : cvb_coef → Int → Int → Int)
    (ct : List cvb_coef) (s vmin vfloor : Int) (n j : Nat) (p : gk20a_volt_priv)
    (h : vid_loop rv cv ct s vmin vfloor j p.vid_nr 0 p = .fault) :
    therm_loop rv cv ct s vmin vfloor (n + 1) j p = .fault := by
  simp [therm_loop, h]

theorem cell_built_congr (rv : Int → Int) (cv : cvb_coef → Int → Int → Int)
    (ct : List cvb_coef) (s vmin vfloor : Int) (p p' : gk20a_volt_priv) (j k : Nat)
    (h : p'.scale_table j k = p.scale_table j k)
    (hc : cell_built rv cv ct s vmin vfloor p j k) : cell_built rv cv ct s vmin vfloor p' j k := by
  obtain ⟨coef, h1, h2, h3⟩ := hc
  exact ⟨coef, h1, h2, h.trans h3⟩

theorem table_built_row (rv : Int → Int) (cv : cvb_coef → Int → Int → Int)
    (ct : List cvb_coef) (s vmin vfloor : Int) (vn : Nat) (p p' : gk20a_volt_priv) (j kf : Nat)
    (hk : kf ≤ vn) (h : row_built rv cv ct s vmin vfloor p p' j 0 kf) :
    table_built rv cv ct s vmin vfloor vn p p' j j kf := by
  obtain ⟨hh, hw, hu⟩ := h
  refine ⟨hh, ?_, ?_⟩
  · intro j' k h1 h2 h3
    have : j' = j ∧ k < kf := by unfold before at h3; omega
    rw [this.1]
    exact hw k (Nat.zero_le k) this.2
  · intro j' k hn
    apply hu
    unfold before at hn
    omega

theorem table_built_step (rv : Int → Int) (cv : cvb_coef → Int → Int → Int)
    (ct : List cvb_coef) (s vmin vfloor : Int) (vn : Nat) (p p1 p' : gk20a_volt_priv)
    (j jf kf : Nat) (hj : j < jf)
    (h1 : row_built rv cv ct s vmin vfloor p p1 j 0 vn)
    (h2 : table_built rv cv ct s vmin vfloor vn p1 p' (j + 1) jf kf) :
    table_built rv cv ct s vmin vfloor vn p p' j jf kf := by
  obtain ⟨hh1, hw1, hu1⟩ := h1
  obtain ⟨hh2, hw2, hu2⟩ := h2
  refine ⟨same_header_trans hh1 hh2, ?_, ?_⟩
  · intro j' k a b c
    by_cases e : j' = j
    · subst e
      exact cell_built_congr rv cv ct s vmin vfloor p1 p' j' k (hu2 j' k (by omega))
        (hw1 k (Nat.zero_le k) b)
    · exact hw2 j' k (by omega) b c
  · intro j' k hn
    have a : ¬(j + 1 ≤ j' ∧ k < vn ∧ before j' k jf kf) := by
      unfold before at hn ⊢
      omega
    have b : ¬(j' = j ∧ 0 ≤ k ∧ k < vn) := by
      unfold before at hn
      omega
    rw [hu2 j' k a, hu1 j' k b]

theorem therm_loop_spec (rv : Int → Int) (cv : cvb_coef → Int → Int → Int)
    (ct : List cvb_coef) (s vmin vfloor : Int) :
    ∀ (n j : Nat) (p : gk20a_volt_priv),
      therm_post rv cv ct s vmin vfloor p j n (therm_loop rv cv ct s vmin vfloor n j p) := by
  intro n
  induction n with
  | zero =>
    intro j p
    rw [therm_loop_zero]
    refine ⟨same_header_refl p, ?_, ?_⟩
    · intro j' k a _ c
      unfold before at c
      omega
    · intro j' k _; rfl
  | succ n ih =>
    intro j p
    have hv := vid_loop_spec rv cv ct s vmin vfloor j p.vid_nr 0 p
    cases hr : vid_loop rv cv ct s vmin vfloor j p.vid_nr 0 p with
    | fault =>
      rw [hr] at hv
      rw [therm_loop_succ_fault rv cv ct s vmin vfloor n j p hr]
      have hv' : ct.length < 0 + p.vid_nr := hv
      show ct.length < p.vid_nr
      omega
    | ret c p1 =>
      rw [hr] at hv
      rw [therm_loop_succ_ret rv cv ct s vmin vfloor n j p p1 c hr]
      obtain ⟨kf, _, h2, h3, h4, h5⟩ := hv
      exact ⟨j, kf, le_refl j, by omega, by omega, h3, h4,
        table_built_row rv cv ct s vmin vfloor p.vid_nr p p1 j kf (by omega) h5⟩
    | next p1 =>
      rw [hr] at hv
      rw [therm_loop_succ_next rv cv ct s vmin vfloor n j p p1 hr]
      have hrow : row_built rv cv ct s vmin vfloor p p1 j 0 (0 + p.vid_nr) := hv
      rw [Nat.zero_add] at hrow
      have hvn : p1.vid_nr = p.vid_nr := hrow.1.1
      have h := ih (j + 1) p1
      revert h
      cases therm_loop rv cv ct s vmin vfloor n (j + 1) p1 with
      | fault =>
        intro h
        have h' : ct.length < p1.vid_nr := h
        show ct.length < p.vid_nr
        omega
      | ret c p' =>
        intro h
        obtain ⟨jf, kf, a1, a2, a3, a4, a5, a6⟩ := h
        rw [hvn] at a3 a6
        exact ⟨jf, kf, by omega, by omega, a3, a4, a5,
          table_built_step rv cv ct s vmin vfloor p.vid_nr p p1 p' j jf kf (by omega) hrow a6⟩
      | next p' =>
        intro h
        have h' : table_built rv cv ct s vmin vfloor p1.vid_nr p1 p' (j + 1) (j + 1 + n) 0 := h
        rw [hvn] at h'
        have e : j + 1 + n = j + (n + 1) := by omega
        rw [e] at h'
        exact table_built_step rv cv ct s vmin vfloor p.vid_nr p p1 p' j (j + (n + 1)) 0
          (by omega) hrow h'

theorem therm_loop_total (rv : Int → Int) (cv : cvb_coef → Int → Int → Int)
    (ct : List cvb_coef) (s vmin vfloor : Int) :
    ∀ (n j : Nat) (p : gk20a_volt_priv), p.vid_nr ≤ ct.length →
      (∀ j' k coef, j ≤ j' → j' < j + n → k < p.vid_nr → ct[k]? = some coef →
        0 ≤ rv (cv coef s j')) →
      ∃ p', therm_loop rv cv ct s vmin vfloor n j p = .next p' := by
  intro n
  induction n with
  | zero => intro j p _ _; exact ⟨p, rfl⟩
  | succ n ih =>
    intro j p hlen hok
    obtain ⟨p1, hp1⟩ := vid_loop_total rv cv ct s vmin vfloor j p.vid_nr 0 p (by omega)
      (fun k coef _ h2 h3 => hok j k coef (le_refl j) (by omega) (by omega) h3)
    have hv := vid_loop_spec rv cv ct s vmin vfloor j p.vid_nr 0 p
    rw [hp1] at hv
    have hvn : p1.vid_nr = p.vid_nr := hv.1.1
    rw [therm_loop_succ_next rv cv ct s vmin vfloor n j p p1 hp1]
    exact ih (j + 1) p1 (by omega)
      (fun j' k coef h1 h2 h3 h4 => hok j' k coef (by omega) (by omega) (by omega) h4)

/-! ## The constructor, path by path -/

theorem array_read_speedo_to_vmin (id v : Int) (h : array_read speedo_to_vmin id = some v) :
    0 ≤ id ∧ id ≤ MAX_SPEEDO := by
  unfold array_read at h
  by_cases h0 : id < 0
  · simp [h0] at h
  · simp only [h0, if_false] at h
    have hlt : id.toNat < speedo_to_vmin.length := by
      by_contra hc
      rw [List.getElem?_eq_none (not_lt.mp hc)] at h
      exact Option.noConfusion h
    have : speedo_to_vmin.length = 5 := rfl
    unfold MAX_SPEEDO
    omega

theorem array_read_speedo_to_vmin_some (id : Int) (h0 : 0 ≤ id) (h4 : id ≤ MAX_SPEEDO) :
    ∃ v, array_read speedo_to_vmin id = some v := by
  unfold MAX_SPEEDO at h4
  interval_cases id <;> exact ⟨_, rfl⟩

theorem select_coef_table_length (id : Int) :
    (select_coef_table id).2 = (select_coef_table id).1.length := by
  unfold select_coef_table
  split <;> rfl

theorem ctor_unsupported (M : Int) (rv : Int → Int) (cv : cvb_coef → Int → Int → Int)
    (trips : tegra210_trips) (id s : Int) (p : gk20a_volt_priv) (h : id > MAX_SPEEDO) :
    gm20b_volt_ctor M rv cv trips id s p = some (-EINVAL, p) := by
  simp [gm20b_volt_ctor, h]

theorem ctor_fault (M : Int) (rv : Int → Int) (cv : cvb_coef → Int → Int → Int)
    (trips : tegra210_trips) (id s : Int) (p : gk20a_volt_priv) (h : ¬ id > MAX_SPEEDO)
    (hv : array_read speedo_to_vmin id = none) :
    gm20b_volt_ctor M rv cv trips id s p = none := by
  simp [gm20b_volt_ctor, h, hv]

theorem ctor_supported (M : Int) (rv : Int → Int) (cv : cvb_coef → Int → Int → Int)
    (trips : tegra210_trips) (id s : Int) (p : gk20a_volt_priv) (v : Int)
    (hv : array_read speedo_to_vmin id = some v) :
    gm20b_volt_ctor M rv cv trips id s p =
      if rv v < 0 then some (-EINVAL, priv_selected trips id p)
      else if rv TEGRA210_GPU_THERM_VFLOOR < 0 then
        some (rv TEGRA210_GPU_THERM_VFLOOR, priv_selected trips id p)
      else if (5 : Int) > M then
        some (-EINVAL, { priv_selected trips id p with
          therm_nr := (gm20b_thermal_table trips).length - 1 })
      else
        match therm_loop rv cv (select_coef_table id).1 s (rv v)
            (rv TEGRA210_GPU_THERM_VFLOOR) 5 0 (priv_ready trips id p) with
        | .fault => none
        | .ret ret priv => some (ret, priv)
        | .next priv => some (0, copy_row priv) := by
  have h := (array_read_speedo_to_vmin id v hv).2
  have h' : ¬ id > MAX_SPEEDO := not_lt.mpr h
  simp only [gm20b_volt_ctor, h', if_false, hv]
  rfl

/-- Every way the constructor returns: the five `return` statements, each with
the condition under which it is reached and the object it leaves. -/
theorem ctor_cases (M : Int) (rv : Int → Int) (cv : cvb_coef → Int → Int → Int)
    (trips : tegra210_trips) (id s : Int) (p : gk20a_volt_priv) (c : Int)
    (p' : gk20a_volt_priv) (h : gm20b_volt_ctor M rv cv trips id s p = some (c, p')) :
    (id > MAX_SPEEDO ∧ c = -EINVAL ∧ p' = p) ∨
    ∃ v, array_read speedo_to_vmin id = some v ∧
      ((rv v < 0 ∧ c = -EINVAL ∧ p' = priv_selected trips id p) ∨
       (0 ≤ rv v ∧ rv TEGRA210_GPU_THERM_VFLOOR < 0 ∧ c = rv TEGRA210_GPU_THERM_VFLOOR ∧
          p' = priv_selected trips id p) ∨
       (0 ≤ rv v ∧ 0 ≤ rv TEGRA210_GPU_THERM_VFLOOR ∧ 5 > M ∧ c = -EINVAL ∧
          p' = { priv_selected trips id p with
            therm_nr := (gm20b_thermal_table trips).length - 1 }) ∨
       (0 ≤ rv v ∧ 0 ≤ rv TEGRA210_GPU_THERM_VFLOOR ∧ 5 ≤ M ∧
          therm_loop rv cv (select_coef_table id).1 s (rv v)
            (rv TEGRA210_GPU_THERM_VFLOOR) 5 0 (priv_ready trips id p) = .ret c p') ∨
       (0 ≤ rv v ∧ 0 ≤ rv TEGRA210_GPU_THERM_VFLOOR ∧ 5 ≤ M ∧ c = 0 ∧
          ∃ q, therm_loop rv cv (select_coef_table id).1 s (rv v)
            (rv TEGRA210_GPU_THERM_VFLOOR) 5 0 (priv_ready trips id p) = .next q ∧
            p' = copy_row q)) := by
  by_cases h1 : id > MAX_SPEEDO
  · rw [ctor_unsupported M rv cv trips id s p h1] at h
    injection h with h
    injection h with ha hb
    exact Or.inl ⟨h1, ha.symm, hb.symm⟩
  · right
    cases hv : array_read speedo_to_vmin id with
    | none =>
      rw [ctor_fault M rv cv trips id s p h1 hv] at h
      exact Option.noConfusion h
    | some v =>
      refine ⟨v, rfl, ?_⟩
      rw [ctor_supported M rv cv trips id s p v hv] at h
      by_cases a : rv v < 0
      · simp only [a, if_true] at h
        injection h with h
        injection h with ha hb
        exact Or.inl ⟨a, ha.symm, hb.symm⟩
      · simp only [a, if_false] at h
        by_cases b : rv TEGRA210_GPU_THERM_VFLOOR < 0
        · simp only [b, if_true] at h
          injection h with h
          injection h with ha hb
          exact Or.inr (Or.inl ⟨not_lt.mp a, b, ha.symm, hb.symm⟩)
        · simp only [b, if_false] at h
          by_cases d : (5 : Int) > M
          · simp only [d, if_true] at h
            injection h with h
            injection h with ha hb
            exact Or.inr (Or.inr (Or.inl ⟨not_lt.mp a, not_lt.mp b, d, ha.symm, hb.symm⟩))
          · simp only [d, if_false] at h
            revert h
            cases therm_loop rv cv (select_coef_table id).1 s (rv v)
                (rv TEGRA210_GPU_THERM_VFLOOR) 5 0 (priv_ready trips id p) with
            | fault => intro h; exact Option.noConfusion h
            | ret c1 p1 =>
              intro h
              injection h with h
              injection h with ha hb
              subst ha
              subst hb
              exact Or.inr (Or.inr (Or.inr (Or.inl ⟨not_lt.mp a, not_lt.mp b, not_lt.mp d, rfl⟩)))
            | next q =>
              intro h
              injection h with h
              injection h with ha hb
              exact Or.inr (Or.inr (Or.inr (Or.inr
                ⟨not_lt.mp a, not_lt.mp b, not_lt.mp d, ha.symm, q, rfl, hb.symm⟩)))

/-- A return value of 0 comes from the last `return` only, after both loops
ran to their end. -/
theorem ctor_success (M : Int) (rv : Int → Int) (cv : cvb_coef → Int → Int → Int)
    (trips : tegra210_trips) (id s : Int) (p p' : gk20a_volt_priv)
    (h : gm20b_volt_ctor M rv cv trips id s p = some (0, p')) :
    ∃ v, array_read speedo_to_vmin id = some v ∧ 0 ≤ rv v ∧
      0 ≤ rv TEGRA210_GPU_THERM_VFLOOR ∧ 5 ≤ M ∧
      ∃ q, table_built rv cv (select_coef_table id).1 s (rv v)
          (rv TEGRA210_GPU_THERM_VFLOOR) (select_coef_table id).2
          (priv_ready trips id p) q 0 5 0 ∧ p' = copy_row q := by
  have hE : (0 : Int) ≠ -EINVAL := by unfold EINVAL; omega
  rcases ctor_cases M rv cv trips id s p 0 p' h with ⟨_, hc, _⟩ | ⟨v, hv, hcase⟩
  · exact absurd hc hE
  · refine ⟨v, hv, ?_⟩
    rcases hcase with ⟨_, hc, _⟩ | ⟨_, hlt, hc, _⟩ | ⟨_, _, _, hc, _⟩ | ⟨_, _, _, hl⟩ |
      ⟨a, b, d, _, q, hq, hp'⟩
    · exact absurd hc hE
    · rw [← hc] at hlt
      exact absurd hlt (lt_irrefl 0)
    · exact absurd hc hE
    · have hs := therm_loop_spec rv cv (select_coef_table id).1 s (rv v)
        (rv TEGRA210_GPU_THERM_VFLOOR) 5 0 (priv_ready trips id p)
      rw [hl] at hs
      obtain ⟨jf, kf, _, _, _, _, hneg, _⟩ := hs
      exact absurd hneg (lt_irrefl 0)
    · have hs := therm_loop_spec rv cv (select_coef_table id).1 s (rv v)
        (rv TEGRA210_GPU_THERM_VFLOOR) 5 0 (priv_ready trips id p)
      rw [hq] at hs
      exact ⟨a, b, d, q, hs, hp'⟩

/-- The constructor returns 0 when nothing on its way fails. -/
theorem ctor_total (M : Int) (rv : Int → Int) (cv : cvb_coef → Int → Int → Int)
    (trips : tegra210_trips) (id s : Int) (p : gk20a_volt_priv) (v : Int)
    (hv : array_read speedo_to_vmin id = some v) (hvmin : 0 ≤ rv v)
    (hvfloor : 0 ≤ rv TEGRA210_GPU_THERM_VFLOOR) (hM : 5 ≤ M)
    (hq : ∀ (j k : Nat) (coef : cvb_coef), j < 5 →
      (select_coef_table id).1[k]? = some coef → 0 ≤ rv (cv coef s j)) :
    ∃ p', gm20b_volt_ctor M rv cv trips id s p = some (0, p') := by
  rw [ctor_supported M rv cv trips id s p v hv]
  simp only [not_lt.mpr hvmin, not_lt.mpr hvfloor, if_false, gt_iff_lt, not_lt.mpr hM]
  obtain ⟨q, hq'⟩ := therm_loop_total rv cv (select_coef_table id).1 s (rv v)
    (rv TEGRA210_GPU_THERM_VFLOOR) 5 0 (priv_ready trips id p)
    (le_of_eq (select_coef_table_length id))
    (fun j' k coef _ h2 _ h4 => hq j' k coef (by omega) h4)
  rw [hq']
  exact ⟨copy_row q, rfl⟩

/-- What a return value of 0 says about the object: the sizes, the active
zone, the copied row, the built cells and the untouched cells. -/
theorem ctor_success_table (M : Int) (rv : Int → Int) (cv : cvb_coef → Int → Int → Int)
    (trips : tegra210_trips) (id s : Int) (p p' : gk20a_volt_priv)
    (h : gm20b_volt_ctor M rv cv trips id s p = some (0, p')) :
    ∃ v, array_read speedo_to_vmin id = some v ∧ 0 ≤ rv v ∧
      0 ≤ rv TEGRA210_GPU_THERM_VFLOOR ∧ 5 ≤ M ∧
      p'.therm_nr = 5 ∧ p'.vid_nr = (select_coef_table id).2 ∧ p'.therm_idx = 0 ∧
      p'.vid = p'.scale_table 0 ∧
      (∀ j k, j < 5 → k < (select_coef_table id).2 →
        cell_built rv cv (select_coef_table id).1 s (rv v)
          (rv TEGRA210_GPU_THERM_VFLOOR) p' j k) ∧
      (∀ j k, ¬(j < 5 ∧ k < (select_coef_table id).2) →
        p'.scale_table j k = p.scale_table j k) := by
  obtain ⟨v, hv, a, b, d, q, ⟨hh, hw, hu⟩, hp'⟩ := ctor_success M rv cv trips id s p p' h
  obtain ⟨h1, _, _, h4, h5⟩ := hh
  subst hp'
  refine ⟨v, hv, a, b, d, h4, h1, h5, ?_, ?_, ?_⟩
  · show q.scale_table q.therm_idx = q.scale_table 0
    rw [h5]
    rfl
  · intro j k hj hk
    exact cell_built_congr rv cv _ s _ _ q (copy_row q) j k rfl
      (hw j k (Nat.zero_le j) hk (Or.inl hj))
  · intro j k hn
    show q.scale_table j k = p.scale_table j k
    rw [hu j k (by unfold before; omega)]
    rfl

/-- The constructor writes `vid_nr` as soon as the speedo id is accepted:
whatever it returns afterwards, `vid_nr` is the size of the selected table. -/
theorem ctor_vid_nr (M : Int) (rv : Int → Int) (cv : cvb_coef → Int → Int → Int)
    (trips : tegra210_trips) (id s : Int) (p : gk20a_volt_priv) (c : Int)
    (p' : gk20a_volt_priv) (h : gm20b_volt_ctor M rv cv trips id s p = some (c, p'))
    (hid : id ≤ MAX_SPEEDO) : p'.vid_nr = (select_coef_table id).2 := by
  rcases ctor_cases M rv cv trips id s p c p' h with ⟨hgt, _, _⟩ | ⟨v, hv, hcase⟩
  · exact absurd hid (not_le.mpr hgt)
  · rcases hcase with ⟨_, _, hp⟩ | ⟨_, _, _, hp⟩ | ⟨_, _, _, _, hp⟩ | ⟨_, _, _, hl⟩ |
      ⟨_, _, _, _, q, hq, hp⟩
    · rw [hp]; rfl
    · rw [hp]; rfl
    · rw [hp]; rfl
    · have hs := therm_loop_spec rv cv (select_coef_table id).1 s (rv v)
        (rv TEGRA210_GPU_THERM_VFLOOR) 5 0 (priv_ready trips id p)
      rw [hl] at hs
      obtain ⟨jf, kf, _, _, _, _, _, hh, _⟩ := hs
      exact hh.1
    · have hs := therm_loop_spec rv cv (select_coef_table id).1 s (rv v)
        (rv TEGRA210_GPU_THERM_VFLOOR) 5 0 (priv_ready trips id p)
      rw [hq] at hs
      rw [hp]
      exact hs.1.1

/-- What a failed call leaves: `volt->vid` as it was, and the scale table as
it was unless the failure is a rounding failure inside the loops, at a pair
`(jf, kf)`; then the cells before that pair, in row-major order, are built. -/
theorem ctor_failure_table (M : Int) (rv : Int → Int) (cv : cvb_coef → Int → Int → Int)
    (trips : tegra210_trips) (id s : Int) (p : gk20a_volt_priv) (c : Int)
    (p' : gk20a_volt_priv) (h : gm20b_volt_ctor M rv cv trips id s p = some (c, p'))
    (hc : c ≠ 0) :
    p'.vid = p.vid ∧
    (((id > MAX_SPEEDO ∨ ∃ v, array_read speedo_to_vmin id = some v ∧
          (rv v < 0 ∨ rv TEGRA210_GPU_THERM_VFLOOR < 0 ∨ 5 > M)) ∧
        p'.scale_table = p.scale_table) ∨
     ∃ (v : Int) (jf kf : Nat) (coef : cvb_coef), array_read speedo_to_vmin id = some v ∧
        0 ≤ rv v ∧
        0 ≤ rv TEGRA210_GPU_THERM_VFLOOR ∧ 5 ≤ M ∧
        jf < 5 ∧ kf < (select_coef_table id).2 ∧
        (select_coef_table id).1[kf]? = some coef ∧ c = rv (cv coef s jf) ∧ c < 0 ∧
        (∀ j k, k < (select_coef_table id).2 → before j k jf kf →
          cell_built rv cv (select_coef_table id).1 s (rv v)
            (rv TEGRA210_GPU_THERM_VFLOOR) p' j k) ∧
        (∀ j k, ¬(k < (select_coef_table id).2 ∧ before j k jf kf) →
          p'.scale_table j k = p.scale_table j k)) := by
  rcases ctor_cases M rv cv trips id s p c p' h with ⟨hgt, _, hp⟩ | ⟨v, hv, hcase⟩
  · rw [hp]
    exact ⟨rfl, Or.inl ⟨Or.inl hgt, rfl⟩⟩
  · rcases hcase with ⟨a, _, hp⟩ | ⟨_, b, _, hp⟩ | ⟨_, _, d, _, hp⟩ | ⟨a, b, d, hl⟩ |
      ⟨_, _, _, h0, _⟩
    · rw [hp]
      exact ⟨rfl, Or.inl ⟨Or.inr ⟨v, hv, Or.inl a⟩, rfl⟩⟩
    · rw [hp]
      exact ⟨rfl, Or.inl ⟨Or.inr ⟨v, hv, Or.inr (Or.inl b)⟩, rfl⟩⟩
    · rw [hp]
      exact ⟨rfl, Or.inl ⟨Or.inr ⟨v, hv, Or.inr (Or.inr d)⟩, rfl⟩⟩
    · have hs := therm_loop_spec rv cv (select_coef_table id).1 s (rv v)
        (rv TEGRA210_GPU_THERM_VFLOOR) 5 0 (priv_ready trips id p)
      rw [hl] at hs
      obtain ⟨jf, kf, _, e2, e3, ⟨coef, e4, e5⟩, e6, hh, hw, hu⟩ := hs
      refine ⟨hh.2.1, Or.inr ⟨v, jf, kf, coef, hv, a, b, d, by omega, e3, e4, e5, e6, ?_, ?_⟩⟩
      · intro j k hk hb
        exact hw j k (Nat.zero_le j) hk hb
      · intro j k hn
        have e := hu j k (fun hx => hn ⟨hx.2.1, hx.2.2⟩)
        rw [e]
        rfl
    · exact absurd h0 hc

/-! ## The legacy curve and the step quantizer -/

theorem grid_round_voltage_mono (a b : Int) (h : a ≤ b) :
    grid_round_voltage a ≤ grid_round_voltage b := by
  unfold grid_round_voltage
  omega

/-- The truncated quotient lies within one divisor of the exact one. -/
theorem tdiv_bounds (a d : Int) (hd : 0 < d) :
    a - d < d * Int.tdiv a d ∧ d * Int.tdiv a d < a + d := by
  have h1 := Int.tdiv_add_tmod a d
  have h2 := Int.tmod_lt_of_pos a hd
  rcases le_total 0 a with ha | ha
  · have h3 := Int.tmod_nonneg d ha
    constructor <;> omega
  · have h4 := Int.tdiv_add_tmod (-a) d
    have h5 := Int.tmod_lt_of_pos (-a) hd
    have h6 := Int.tmod_nonneg d (show 0 ≤ -a by omega)
    rw [Int.neg_tdiv] at h4
    have h7 : d * -(Int.tdiv a d) = -(d * Int.tdiv a d) := by ring
    rw [h7] at h4
    constructor <;> omega

/-- Two rows of the legacy table one step apart, at a speedo value of at most
`31 * s_scale`: the curve value of the later row is not smaller. -/
theorem legacy_step_le (d s : Int) (a b : cvb_coef) (j j' : Int) (hd : 1 ≤ d)
    (hs : s ≤ 31 * d) (h2 : a.c2 = b.c2) (h1 : b.c1 ≤ a.c1) (h1' : a.c1 - b.c1 ≤ 1900)
    (h0 : a.c0 + 58902 ≤ b.c0) :
    legacy_calc_voltage d a s j ≤ legacy_calc_voltage d b s j' := by
  unfold legacy_calc_voltage
  rw [h2]
  have hd0 : 0 < d := by omega
  obtain ⟨_, hx⟩ := tdiv_bounds (a.c1 * s) d hd0
  obtain ⟨hy, _⟩ := tdiv_bounds (b.c1 * s) d hd0
  have hxy : a.c1 * s - b.c1 * s ≤ 58900 * d := by
    rcases le_total 0 s with hs0 | hs0
    · have e1 : (a.c1 - b.c1) * s ≤ 1900 * s := mul_le_mul_of_nonneg_right h1' hs0
      have e2 : (a.c1 - b.c1) * s = a.c1 * s - b.c1 * s := by ring
      omega
    · have e1 : (a.c1 - b.c1) * s ≤ 0 :=
        mul_nonpos_of_nonneg_of_nonpos (by omega) hs0
      have e2 : (a.c1 - b.c1) * s = a.c1 * s - b.c1 * s := by ring
      omega
  have hlt : d * (Int.tdiv (a.c1 * s) d - Int.tdiv (b.c1 * s) d) < d * 58902 := by
    have e : d * (Int.tdiv (a.c1 * s) d - Int.tdiv (b.c1 * s) d) =
        d * Int.tdiv (a.c1 * s) d - d * Int.tdiv (b.c1 * s) d := by ring
    rw [e]
    omega
  have hq : Int.tdiv (a.c1 * s) d - Int.tdiv (b.c1 * s) d < 58902 :=
    lt_of_mul_lt_mul_left hlt (le_of_lt hd0)
  omega

theorem gm20b_cvb_coef_steps (i : Nat) (a b : cvb_coef) (ha : gm20b_cvb_coef[i]? = some a)
    (hb : gm20b_cvb_coef[i + 1]? = some b) :
    a.c2 = b.c2 ∧ b.c1 ≤ a.c1 ∧ a.c1 - b.c1 ≤ 1900 ∧ a.c0 + 58902 ≤ b.c0 := by
  have hi : i + 1 < gm20b_cvb_coef.length := (List.getElem?_eq_some.mp hb).1
  have hlen : gm20b_cvb_coef.length = 12 := rfl
  have hi' : i < 11 := by omega
  interval_cases i <;>
    (simp only [gm20b_cvb_coef, List.getElem?_cons_succ, List.getElem?_cons_zero,
        Option.some.injEq] at ha hb
     subst ha
     subst hb
     decide)

theorem min?_spec (xs : List Int) (a : Int) (h : xs.min? = some a) :
    a ∈ xs ∧ ∀ b ∈ xs, a ≤ b := by
  have anti : Std.Antisymm (fun (x y : Int) => x ≤ y) := ⟨Int.le_antisymm⟩
  exact (List.min?_eq_some_iff (fun a => Int.le_refl a)
    (fun a b => by rcases le_total a b with h | h <;> simp [h])
    (fun a b c => le_min_iff)).mp h

/-- The step quantizer, when it does not fail, returns the least step that is
not below the voltage. -/
theorem step_round_voltage_spec (steps : List Int) (x : Int)
    (h : 0 ≤ step_round_voltage steps x) :
    x ≤ step_round_voltage steps x ∧ step_round_voltage steps x ∈ steps ∧
      ∀ b ∈ steps, x ≤ b → step_round_voltage steps x ≤ b := by
  unfold step_round_voltage at h ⊢
  cases hm : (steps.filter (fun v => decide (x ≤ v))).min? with
  | none =>
    rw [hm] at h
    simp only [EINVAL] at h
    omega
  | some v =>
    obtain ⟨hmem, hmin⟩ := min?_spec _ v hm
    rw [List.mem_filter] at hmem
    simp only
    refine ⟨of_decide_eq_true hmem.2, hmem.1, ?_⟩
    intro b hb hxb
    exact hmin b (List.mem_filter.mpr ⟨hb, decide_eq_true hxb⟩)

theorem step_round_voltage_mono (steps : List Int) (a b : Int) (hab : a ≤ b)
    (ha : 0 ≤ step_round_voltage steps a) (hb : 0 ≤ step_round_voltage steps b) :
    step_round_voltage steps a ≤ step_round_voltage steps b := by
  obtain ⟨_, _, h3⟩ := step_round_voltage_spec steps a ha
  obtain ⟨k1, k2, _⟩ := step_round_voltage_spec steps b hb
  exact h3 _ k2 (le_trans hab k1)

theorem built_uv_mono (q q' vmin vfloor : Int) (j : Nat) (h : q ≤ q') :
    built_uv q vmin vfloor j ≤ built_uv q' vmin vfloor j := by
  rw [built_uv_eq, built_uv_eq]
  split
  · exact max_le_max (max_le_max h (le_refl _)) (le_refl _)
  · exact max_le_max h (le_refl _)

/-- A row of a built table is non-decreasing when the curve values are, for a
quantizer that is monotone on the voltages it rounds without error. -/
theorem rows_monotone (M : Int) (rv : Int → Int) (cv : cvb_coef → Int → Int → Int)
    (trips : tegra210_trips) (id s : Int) (p p' : gk20a_volt_priv)
    (h : gm20b_volt_ctor M rv cv trips id s p = some (0, p'))
    (hmono : ∀ a b, a ≤ b → 0 ≤ rv a → 0 ≤ rv b → rv a ≤ rv b)
    (hcv : ∀ (j i : Nat) (a b : cvb_coef), (select_coef_table id).1[i]? = some a →
      (select_coef_table id).1[i + 1]? = some b → cv a s j ≤ cv b s j) :
    ∀ j i, j < p'.therm_nr → i + 1 < p'.vid_nr →
      (p'.scale_table j i).uv ≤ (p'.scale_table j (i + 1)).uv := by
  obtain ⟨v, _, _, _, _, a1, a2, _, _, hw, _⟩ := ctor_success_table M rv cv trips id s p p' h
  intro j i hj hi
  rw [a1] at hj
  rw [a2] at hi
  obtain ⟨a, ha, hqa, hca⟩ := hw j i hj (by omega)
  obtain ⟨b, hb, hqb, hcb⟩ := hw j (i + 1) hj hi
  rw [hca, hcb]
  exact built_uv_mono _ _ _ _ j (hmono _ _ (hcv j i a b ha hb) hqa hqb)

/-! ## Zones and steps of a built table -/

/-- With a curve that does not use the zone handed to it, the rows of the
zones above zero of a built table are equal. -/
theorem cells_zone_indep (M : Int) (rv : Int → Int) (cv : cvb_coef → Int → Int → Int)
    (trips : tegra210_trips) (id s : Int) (p p' : gk20a_volt_priv)
    (h : gm20b_volt_ctor M rv cv trips id s p = some (0, p'))
    (hzone : ∀ (coef : cvb_coef) (j k : Int), cv coef s j = cv coef s k) :
    ∀ j k i, 1 ≤ j → 1 ≤ k → j < p'.therm_nr → k < p'.therm_nr → i < p'.vid_nr →
      p'.scale_table j i = p'.scale_table k i := by
  obtain ⟨v, _, _, _, _, a1, a2, _, _, hw, _⟩ := ctor_success_table M rv cv trips id s p p' h
  intro j k i hj1 hk1 hj hk hi
  rw [a1] at hj hk
  rw [a2] at hi
  obtain ⟨a, ha, _, hca⟩ := hw j i hj hi
  obtain ⟨b, hb, _, hcb⟩ := hw k i hk hi
  have hab : a = b := Option.some.inj (ha.symm.trans hb)
  subst hab
  have hj0 : j ≠ 0 := by omega
  have hk0 : k ≠ 0 := by omega
  rw [hca, hcb, built_uv_eq, built_uv_eq, hzone a j k]
  simp [hj0, hk0]

/-- Every cell of a built table carries its column as `vid`. -/
theorem cells_vid (M : Int) (rv : Int → Int) (cv : cvb_coef → Int → Int → Int)
    (trips : tegra210_trips) (id s : Int) (p p' : gk20a_volt_priv)
    (h : gm20b_volt_ctor M rv cv trips id s p = some (0, p')) :
    ∀ j i, j < p'.therm_nr → i < p'.vid_nr → (p'.scale_table j i).vid = (i : Int) := by
  obtain ⟨v, _, _, _, _, a1, a2, _, _, hw, _⟩ := ctor_success_table M rv cv trips id s p p' h
  intro j i hj hi
  rw [a1] at hj
  rw [a2] at hi
  obtain ⟨a, _, _, hca⟩ := hw j i hj hi
  rw [hca]

/-! ## When the constructor returns, and what -/

/-- The constructor returns 0 exactly when the speedo id is accepted, the
lookup of `speedo_to_vmin` is inside the table, the quantizer fails neither on
that value nor on the floor nor on any curve value, and the thermal table is
not too large. -/
theorem ctor_zero_iff (M : Int) (rv : Int → Int) (cv : cvb_coef → Int → Int → Int)
    (trips : tegra210_trips) (id s : Int) (p : gk20a_volt_priv) :
    (∃ p', gm20b_volt_ctor M rv cv trips id s p = some (0, p')) ↔
      id ≤ MAX_SPEEDO ∧ ∃ v, array_read speedo_to_vmin id = some v ∧ 0 ≤ rv v ∧
        0 ≤ rv TEGRA210_GPU_THERM_VFLOOR ∧ 5 ≤ M ∧
        ∀ (j i : Nat) (coef : cvb_coef), j < 5 →
          (select_coef_table id).1[i]? = some coef → 0 ≤ rv (cv coef s j) := by
  constructor
  · rintro ⟨p', h⟩
    obtain ⟨v, hv, a, b, d, _, _, _, _, hw, _⟩ := ctor_success_table M rv cv trips id s p p' h
    refine ⟨(array_read_speedo_to_vmin id v hv).2, v, hv, a, b, d, ?_⟩
    intro j i coef hj hc
    have hi : i < (select_coef_table id).2 := by
      rw [select_coef_table_length]
      exact (List.getElem?_eq_some.mp hc).1
    obtain ⟨coef', c1, c2, _⟩ := hw j i hj hi
    have e : coef' = coef := Option.some.inj (c1.symm.trans hc)
    rw [← e]
    exact c2
  · rintro ⟨_, v, hv, a, b, d, hq⟩
    exact ctor_total M rv cv trips id s p v hv a b d hq

/-- A value the constructor returns is 0 or negative. -/
theorem ctor_error_negative (M : Int) (rv : Int → Int) (cv : cvb_coef → Int → Int → Int)
    (trips : tegra210_trips) (id s : Int) (p : gk20a_volt_priv) (c : Int)
    (p' : gk20a_volt_priv) (h : gm20b_volt_ctor M rv cv trips id s p = some (c, p'))
    (hc : c ≠ 0) : c < 0 := by
  have hE : -EINVAL < 0 := by unfold EINVAL; omega
  rcases ctor_cases M rv cv trips id s p c p' h with ⟨_, e, _⟩ | ⟨v, _, hcase⟩
  · rw [e]; exact hE
  · rcases hcase with ⟨_, e, _⟩ | ⟨_, b, e, _⟩ | ⟨_, _, _, e, _⟩ | ⟨_, _, _, hl⟩ |
      ⟨_, _, _, e, _⟩
    · rw [e]; exact hE
    · rw [e]; exact b
    · rw [e]; exact hE
    · have hs := therm_loop_spec rv cv (select_coef_table id).1 s (rv v)
        (rv TEGRA210_GPU_THERM_VFLOOR) 5 0 (priv_ready trips id p)
      rw [hl] at hs
      obtain ⟨_, _, _, _, _, _, hneg, _⟩ := hs
      exact hneg
    · exact absurd e hc

/-- The loops never read the coefficient table outside its bounds. -/
theorem therm_loop_no_fault (rv : Int → Int) (cv : cvb_coef → Int → Int → Int)
    (trips : tegra210_trips) (id s vmin vfloor : Int) (p : gk20a_volt_priv) :
    therm_loop rv cv (select_coef_table id).1 s vmin vfloor 5 0 (priv_ready trips id p) ≠
      .fault := by
  intro hf
  have hs := therm_loop_spec rv cv (select_coef_table id).1 s vmin vfloor 5 0
    (priv_ready trips id p)
  rw [hf] at hs
  have h1 : (select_coef_table id).1.length < (priv_ready trips id p).vid_nr := hs
  have h2 : (priv_ready trips id p).vid_nr = (select_coef_table id).1.length :=
    select_coef_table_length id
  omega

/-- For a speedo id of at least 0 the constructor returns a value. -/
theorem ctor_returns (M : Int) (rv : Int → Int) (cv : cvb_coef → Int → Int → Int)
    (trips : tegra210_trips) (id s : Int) (p : gk20a_volt_priv) (h0 : 0 ≤ id) :
    ∃ c p', gm20b_volt_ctor M rv cv trips id s p = some (c, p') := by
  by_cases h1 : id > MAX_SPEEDO
  · exact ⟨_, _, ctor_unsupported M rv cv trips id s p h1⟩
  · obtain ⟨v, hv⟩ := array_read_speedo_to_vmin_some id h0 (not_lt.mp h1)
    rw [ctor_supported M rv cv trips id s p v hv]
    by_cases a : rv v < 0
    · simp only [a, if_true]
      exact ⟨_, _, rfl⟩
    · simp only [a, if_false]
      by_cases b : rv TEGRA210_GPU_THERM_VFLOOR < 0
      · simp only [b, if_true]
        exact ⟨_, _, rfl⟩
      · simp only [b, if_false]
        by_cases d : (5 : Int) > M
        · simp only [d, if_true]
          exact ⟨_, _, rfl⟩
        · simp only [d, if_false]
          have hnf := therm_loop_no_fault rv cv trips id s (rv v)
            (rv TEGRA210_GPU_THERM_VFLOOR) p
          revert hnf
          cases therm_loop rv cv (select_coef_table id).1 s (rv v)
              (rv TEGRA210_GPU_THERM_VFLOOR) 5 0 (priv_ready trips id p) with
          | fault => intro hnf; exact absurd rfl hnf
          | ret c q => intro _; exact ⟨c, q, rfl⟩
          | next q => intro _; exact ⟨0, copy_row q, rfl⟩

/-- A negative speedo id passes the range check and makes the constructor read
`speedo_to_vmin` below its first entry. -/
theorem ctor_negative_id (M : Int) (rv : Int → Int) (cv : cvb_coef → Int → Int → Int)
    (trips : tegra210_trips) (id s : Int) (p : gk20a_volt_priv) (h : id < 0) :
    ¬ id > MAX_SPEEDO ∧ array_read speedo_to_vmin id = none ∧
      gm20b_volt_ctor M rv cv trips id s p = none := by
  have h1 : ¬ id > MAX_SPEEDO := by unfold MAX_SPEEDO; omega
  have h2 : array_read speedo_to_vmin id = none := by simp [array_read, h]
  exact ⟨h1, h2, ctor_fault M rv cv trips id s p h1 h2⟩

/-- The value returned when the first rounding that fails is the one of the
pair `(jf, kf)`: the negative value of that rounding. -/
theorem ctor_first_failure (M : Int) (rv : Int → Int) (cv : cvb_coef → Int → Int → Int)
    (trips : tegra210_trips) (id s : Int) (p : gk20a_volt_priv) (v : Int)
    (hv : array_read speedo_to_vmin id = some v) (a : 0 ≤ rv v)
    (b : 0 ≤ rv TEGRA210_GPU_THERM_VFLOOR) (d : 5 ≤ M) (jf kf : Nat) (coef : cvb_coef)
    (hjf : jf < 5) (hc : (select_coef_table id).1[kf]? = some coef)
    (hneg : rv (cv coef s jf) < 0)
    (hfirst : ∀ (j k : Nat) (coef' : cvb_coef), before j k jf kf →
      (select_coef_table id).1[k]? = some coef' → 0 ≤ rv (cv coef' s j)) :
    ∃ p', gm20b_volt_ctor M rv cv trips id s p = some (rv (cv coef s jf), p') := by
  rw [ctor_supported M rv cv trips id s p v hv]
  simp only [not_lt.mpr a, not_lt.mpr b, if_false, gt_iff_lt, not_lt.mpr d]
  have hkf : kf < (priv_ready trips id p).vid_nr := by
    have h1 : (priv_ready trips id p).vid_nr = (select_coef_table id).1.length :=
      select_coef_table_length id
    have h2 := (List.getElem?_eq_some.mp hc).1
    omega
  have hs := therm_loop_spec rv cv (select_coef_table id).1 s (rv v)
    (rv TEGRA210_GPU_THERM_VFLOOR) 5 0 (priv_ready trips id p)
  have hnf := therm_loop_no_fault rv cv trips id s (rv v) (rv TEGRA210_GPU_THERM_VFLOOR) p
  revert hs hnf
  cases therm_loop rv cv (select_coef_table id).1 s (rv v)
      (rv TEGRA210_GPU_THERM_VFLOOR) 5 0 (priv_ready trips id p) with
  | fault => intro _ hnf; exact absurd rfl hnf
  | next q =>
    intro hs _
    obtain ⟨_, hw, _⟩ := hs
    obtain ⟨coef', c1, c2, _⟩ := hw jf kf (Nat.zero_le jf) hkf (Or.inl (by omega))
    have e : coef' = coef := Option.some.inj (c1.symm.trans hc)
    rw [e] at c2
    omega
  | ret c q =>
    intro hs _
    obtain ⟨jf', kf', _, _, hkf', ⟨coef', e4, e5⟩, e6, _, hw, _⟩ := hs
    have hpos : jf' = jf ∧ kf' = kf := by
      by_contra hne
      by_cases hb : before jf' kf' jf kf
      · have := hfirst jf' kf' coef' hb e4
        rw [← e5] at this
        omega
      · have hb' : before jf kf jf' kf' := by
          unfold before at hb ⊢
          omega
        obtain ⟨coef'', c1, c2, _⟩ := hw jf kf (Nat.zero_le jf) hkf hb'
        have e : coef'' = coef := Option.some.inj (c1.symm.trans hc)
        rw [e] at c2
        omega
    obtain ⟨e1, e2⟩ := hpos
    subst e1
    subst e2
    have e : coef' = coef := Option.some.inj (e4.symm.trans hc)
    subst e
    exact ⟨q, by rw [e5]⟩

/-! ## Three runs -/

theorem demo_rounds :
    ∀ j : Nat, j < 5 → ∀ coef ∈ gm20b_cvb_coef,
      0 ≤ step_round_voltage [950000, 2000000, 3000000]
        (legacy_calc_voltage 100 coef 0 j) := by
  decide

/-- A run that returns 0: speedo id 0, speedo value 0, a regulator with the
steps 0.95 V, 2 V and 3 V, and `MAX_THERMAL_LIMITS = 8`. -/
theorem demo_success :
    ∃ p', gm20b_volt_ctor 8 (step_round_voltage [950000, 2000000, 3000000])
      (legacy_calc_voltage 100) demo_trips 0 0 priv_zero = some (0, p') := by
  refine ctor_total 8 _ _ demo_trips 0 0 priv_zero 950000 rfl (by decide) (by decide)
    (by decide) ?_
  intro j k coef hj hk
  exact demo_rounds j hj coef (List.getElem?_mem hk)

theorem demo_rounds_na :
    ∀ j : Nat, j < 5 → ∀ coef ∈ gm20b_na_cvb_coef,
      0 ≤ step_round_voltage [840000, 950000, 2000000]
        (legacy_calc_voltage 100 coef 0 j) := by
  decide

/-- A run that returns 0 with the extended table: speedo id 1, a regulator with
the steps 0.84 V, 0.95 V and 2 V, and curve values equal to `c0`. -/
theorem demo_success_na :
    ∃ p', gm20b_volt_ctor 8 (step_round_voltage [840000, 950000, 2000000])
      (legacy_calc_voltage 100) demo_trips 1 0 priv_zero = some (0, p') := by
  refine ctor_total 8 _ _ demo_trips 1 0 priv_zero 840000 rfl (by decide) (by decide)
    (by decide) ?_
  intro j k coef hj hk
  exact demo_rounds_na j hj coef (List.getElem?_mem hk)

theorem demo_failure_code :
    (gm20b_volt_ctor 8 (step_round_voltage [950000, 2000000])
        (legacy_calc_voltage 100) demo_trips 0 0 priv_zero).map Prod.fst = some (-22) := by
  decide

/-- A run that fails inside the loops: speedo id 0, speedo value 0 and a
regulator with the steps 0.95 V and 2 V. -/
theorem demo_failure :
    ∃ p', gm20b_volt_ctor 8 (step_round_voltage [950000, 2000000])
        (legacy_calc_voltage 100) demo_trips 0 0 priv_zero = some (-22, p') := by
  have h := demo_failure_code
  cases hr : gm20b_volt_ctor 8 (step_round_voltage [950000, 2000000])
      (legacy_calc_voltage 100) demo_trips 0 0 priv_zero with
  | none =>
    rw [hr] at h
    exact Option.noConfusion h
  | some r =>
    obtain ⟨c, p'⟩ := r
    rw [hr] at h
    have hc : c = -22 := Option.some.inj h
    subst hc
    exact ⟨p', rfl⟩

/-! ## The claims -/

/-- C1, as stated, fails: with speedo id 0 and speedo value 0 the first curve
value is 1786666 uV; a regulator whose steps end at 1.3 V cannot round it, and
the constructor returns `-EINVAL` instead of 0. -/
theorem C1_counterexample :
    (gm20b_volt_ctor 8
      (step_round_voltage [800000, 850000, 900000, 950000, 1000000, 1050000, 1100000,
        1150000, 1200000, 1250000, 1300000])
      (legacy_calc_voltage 100) demo_trips 0 0 priv_zero).map Prod.fst = some (-22) := by
  decide

/-- C1, amended: for every speedo id in `0 .. MAX_SPEEDO` and every speedo
value, when `MAX_THERMAL_LIMITS` is at least 5 and the quantizer fails neither
on `speedo_to_vmin[id]`, nor on the floor, nor on any curve value, the
constructor returns 0, `therm_nr` is `ARRAY_SIZE(gm20b_thermal_table) - 1 = 5`,
`vid_nr` is the length of the selected coefficient table, every cell
`scale_table[j][k]` with `j < therm_nr` and `k < vid_nr` is built, and no cell
outside these rows and columns is touched. -/
theorem C1_ctor_populates_table (M : Int) (rv : Int → Int) (cv : cvb_coef → Int → Int → Int)
    (trips : tegra210_trips) (id s : Int) (p : gk20a_volt_priv)
    (h0 : 0 ≤ id) (h4 : id ≤ MAX_SPEEDO) (hM : 5 ≤ M)
    (hvmin : ∀ v, array_read speedo_to_vmin id = some v → 0 ≤ rv v)
    (hvfloor : 0 ≤ rv TEGRA210_GPU_THERM_VFLOOR)
    (hq : ∀ (j k : Nat) (coef : cvb_coef), j < 5 →
      (select_coef_table id).1[k]? = some coef → 0 ≤ rv (cv coef s j)) :
    ∃ p' v, gm20b_volt_ctor M rv cv trips id s p = some (0, p') ∧
      array_read speedo_to_vmin id = some v ∧
      p'.therm_nr = (gm20b_thermal_table trips).length - 1 ∧ p'.therm_nr = 5 ∧
      p'.vid_nr = (select_coef_table id).1.length ∧
      (∀ j k, j < p'.therm_nr → k < p'.vid_nr →
        cell_built rv cv (select_coef_table id).1 s (rv v)
          (rv TEGRA210_GPU_THERM_VFLOOR) p' j k) ∧
      (∀ j k, ¬(j < p'.therm_nr ∧ k < p'.vid_nr) →
        p'.scale_table j k = p.scale_table j k) := by
  obtain ⟨v, hv⟩ := array_read_speedo_to_vmin_some id h0 h4
  obtain ⟨p', hp'⟩ := ctor_total M rv cv trips id s p v hv (hvmin v hv) hvfloor hM hq
  obtain ⟨v', hv', _, _, _, a1, a2, _, _, hw, hu⟩ :=
    ctor_success_table M rv cv trips id s p p' hp'
  refine ⟨p', v', hp', hv', a1, a1, a2.trans (select_coef_table_length id), ?_, ?_⟩
  · intro j k hj hk
    rw [a1] at hj
    rw [a2] at hk
    exact hw j k hj hk
  · intro j k hn
    rw [a1, a2] at hn
    exact hu j k hn

/-- C1, amended, on the run of `demo_success`: 5 rows, 12 columns. -/
theorem C1_witness :
    ∃ p', gm20b_volt_ctor 8 (step_round_voltage [950000, 2000000, 3000000])
        (legacy_calc_voltage 100) demo_trips 0 0 priv_zero = some (0, p') ∧
      p'.therm_nr = 5 ∧ p'.vid_nr = 12 ∧ p'.scale_table 4 11 = ⟨3000000, 11⟩ ∧
      p'.scale_table 5 0 = ⟨0, 0⟩ ∧ p'.scale_table 0 12 = ⟨0, 0⟩ := by
  obtain ⟨p', v, hp', hv, _, a, b, c, d⟩ :=
    C1_ctor_populates_table 8 (step_round_voltage [950000, 2000000, 3000000])
      (legacy_calc_voltage 100) demo_trips 0 0 priv_zero (by decide) (by decide) (by decide)
      (fun v hv => by
        have e : v = 950000 := (Option.some.inj hv).symm
        rw [e]
        decide)
      (by decide)
      (fun j k coef hj hk => demo_rounds j hj coef (List.getElem?_mem hk))
  have hb : p'.vid_nr = 12 := b
  have e : v = 950000 := (Option.some.inj hv).symm
  subst e
  refine ⟨p', hp', a, hb, ?_, ?_, ?_⟩
  · obtain ⟨coef, c2, _, c3⟩ := c 4 11 (by omega) (by omega)
    have hcoef : coef = ⟨2647676, -106455, 1632, 0, 0, 0⟩ := (Option.some.inj c2).symm
    subst hcoef
    rw [c3]
    decide
  · rw [d 5 0 (by omega)]
    rfl
  · rw [d 0 12 (by omega)]
    rfl

/-- C2: for every speedo id above `MAX_SPEEDO` the constructor returns
`-EINVAL` and leaves the object exactly as it received it, whatever the
quantizer and the curve are: no table is selected (`vid_nr` is not written),
nothing is rounded and no cell is written. -/
theorem C2_unsupported_speedo (M : Int) (rv : Int → Int) (cv : cvb_coef → Int → Int → Int)
    (trips : tegra210_trips) (id s : Int) (p : gk20a_volt_priv) (h : id > MAX_SPEEDO) :
    gm20b_volt_ctor M rv cv trips id s p = some (-EINVAL, p) ∧
      ∀ (rv' : Int → Int) (cv' : cvb_coef → Int → Int → Int),
        gm20b_volt_ctor M rv' cv' trips id s p = gm20b_volt_ctor M rv cv trips id s p := by
  refine ⟨ctor_unsupported M rv cv trips id s p h, ?_⟩
  intro rv' cv'
  rw [ctor_unsupported M rv cv trips id s p h, ctor_unsupported M rv' cv' trips id s p h]

/-- C2 at speedo id `MAX_SPEEDO + 1 = 5`. -/
theorem C2_witness :
    (5 : Int) > MAX_SPEEDO ∧
      gm20b_volt_ctor 8 (step_round_voltage [950000, 2000000, 3000000])
        (legacy_calc_voltage 100) demo_trips 5 0 priv_zero = some (-22, priv_zero) :=
  ⟨by decide, (C2_unsupported_speedo 8 (step_round_voltage [950000, 2000000, 3000000])
    (legacy_calc_voltage 100) demo_trips 5 0 priv_zero (by decide)).1⟩

/-- C3: when the constructor returns 0, every cell `scale_table[j][i]` with
`j < therm_nr` and `i < vid_nr` has `uv ≥ vmin`, where `vmin` is
`round_voltage(speedo_to_vmin[speedo_id])`. -/
theorem C3_uv_ge_vmin (M : Int) (rv : Int → Int) (cv : cvb_coef → Int → Int → Int)
    (trips : tegra210_trips) (id s : Int) (p p' : gk20a_volt_priv)
    (h : gm20b_volt_ctor M rv cv trips id s p = some (0, p')) :
    ∃ v, array_read speedo_to_vmin id = some v ∧
      ∀ j i, j < p'.therm_nr → i < p'.vid_nr → rv v ≤ (p'.scale_table j i).uv := by
  obtain ⟨v, hv, _, _, _, a1, a2, _, _, hw, _⟩ := ctor_success_table M rv cv trips id s p p' h
  refine ⟨v, hv, ?_⟩
  intro j i hj hi
  rw [a1] at hj
  rw [a2] at hi
  obtain ⟨coef, _, _, c3⟩ := hw j i hj hi
  rw [c3, built_uv_eq]
  show rv v ≤ if j = 0 then _ else _
  split
  · exact le_trans (le_max_right _ _) (le_max_left _ _)
  · exact le_max_right _ _

/-- C3 on the run of `demo_success`, where `vmin` is 950000. -/
theorem C3_witness :
    ∃ p', gm20b_volt_ctor 8 (step_round_voltage [950000, 2000000, 3000000])
        (legacy_calc_voltage 100) demo_trips 0 0 priv_zero = some (0, p') ∧
      ∃ v, array_read speedo_to_vmin 0 = some v ∧
        ∀ j i, j < p'.therm_nr → i < p'.vid_nr →
          step_round_voltage [950000, 2000000, 3000000] v ≤ (p'.scale_table j i).uv := by
  obtain ⟨p', hp'⟩ := demo_success
  exact ⟨p', hp', C3_uv_ge_vmin 8 _ _ demo_trips 0 0 priv_zero p' hp'⟩

/-- C4: when the constructor returns 0, every cell of zone 0,
`scale_table[0][i]` with `i < vid_nr`, has `uv ≥ vfloor`, where `vfloor` is
`round_voltage(TEGRA210_GPU_THERM_VFLOOR)` and the macro is 950000. -/
theorem C4_zone0_ge_vfloor (M : Int) (rv : Int → Int) (cv : cvb_coef → Int → Int → Int)
    (trips : tegra210_trips) (id s : Int) (p p' : gk20a_volt_priv)
    (h : gm20b_volt_ctor M rv cv trips id s p = some (0, p')) :
    TEGRA210_GPU_THERM_VFLOOR = 950000 ∧
      ∀ i, i < p'.vid_nr → rv TEGRA210_GPU_THERM_VFLOOR ≤ (p'.scale_table 0 i).uv := by
  obtain ⟨v, _, _, _, _, _, a2, _, _, hw, _⟩ := ctor_success_table M rv cv trips id s p p' h
  refine ⟨rfl, ?_⟩
  intro i hi
  rw [a2] at hi
  obtain ⟨coef, _, _, c3⟩ := hw 0 i (by omega) hi
  rw [c3, built_uv_eq]
  exact le_max_right _ _

/-- C4 on the run of `demo_success`, where `vfloor` is 950000. -/
theorem C4_witness :
    ∃ p', gm20b_volt_ctor 8 (step_round_voltage [950000, 2000000, 3000000])
        (legacy_calc_voltage 100) demo_trips 0 0 priv_zero = some (0, p') ∧
      ∀ i, i < p'.vid_nr →
        step_round_voltage [950000, 2000000, 3000000] 950000 ≤ (p'.scale_table 0 i).uv := by
  obtain ⟨p', hp'⟩ := demo_success
  exact ⟨p', hp', (C4_zone0_ge_vfloor 8 _ _ demo_trips 0 0 priv_zero p' hp').2⟩

/-- C5: when the constructor returns 0, the cell of zone `j` and step `i`
holds `max(max(q, vmin), vfloor)` for `j = 0` and `max(q, vmin)` for `j ≥ 1`,
where `q = round_voltage(calc_voltage(coef_table[i], speedo_value, j))`: the
floor enters in zone 0 only. -/
theorem C5_entry_formula (M : Int) (rv : Int → Int) (cv : cvb_coef → Int → Int → Int)
    (trips : tegra210_trips) (id s : Int) (p p' : gk20a_volt_priv)
    (h : gm20b_volt_ctor M rv cv trips id s p = some (0, p')) :
    ∃ v, array_read speedo_to_vmin id = some v ∧
      ∀ j i, j < p'.therm_nr → i < p'.vid_nr →
        ∃ coef, (select_coef_table id).1[i]? = some coef ∧
          (j = 0 → (p'.scale_table j i).uv =
            max (max (rv (cv coef s j)) (rv v)) (rv TEGRA210_GPU_THERM_VFLOOR)) ∧
          (1 ≤ j → (p'.scale_table j i).uv = max (rv (cv coef s j)) (rv v)) := by
  obtain ⟨v, hv, _, _, _, a1, a2, _, _, hw, _⟩ := ctor_success_table M rv cv trips id s p p' h
  refine ⟨v, hv, ?_⟩
  intro j i hj hi
  rw [a1] at hj
  rw [a2] at hi
  obtain ⟨coef, c1, _, c3⟩ := hw j i hj hi
  refine ⟨coef, c1, ?_, ?_⟩
  · intro hj0
    rw [c3, built_uv_eq]
    simp [hj0]
  · intro hj1
    have hne : j ≠ 0 := by omega
    rw [c3, built_uv_eq]
    simp [hne]

/-- C5 on the run of `demo_success_na`: at step 0 the cell of zone 1 keeps
840000, below the floor 950000, and the cell of zone 0 is raised to the floor. -/
theorem C5_witness :
    ∃ p', gm20b_volt_ctor 8 (step_round_voltage [840000, 950000, 2000000])
        (legacy_calc_voltage 100) demo_trips 1 0 priv_zero = some (0, p') ∧
      (p'.scale_table 1 0).uv = 840000 ∧ (p'.scale_table 0 0).uv = 950000 := by
  obtain ⟨p', hp'⟩ := demo_success_na
  obtain ⟨v, hv, hall⟩ := C5_entry_formula 8 _ _ demo_trips 1 0 priv_zero p' hp'
  obtain ⟨_, _, _, _, _, a1, a2, _⟩ := ctor_success_table 8 _ _ demo_trips 1 0 priv_zero p' hp'
  have e : v = 840000 := (Option.some.inj hv).symm
  subst e
  have hvn : p'.vid_nr = 13 := a2
  refine ⟨p', hp', ?_, ?_⟩
  · obtain ⟨coef, c1, _, c3⟩ := hall 1 0 (by omega) (by omega)
    have hcoef : coef = ⟨814294, 8144, -940, 808, -21583, 226⟩ := (Option.some.inj c1).symm
    subst hcoef
    rw [c3 (le_refl 1)]
    decide
  · obtain ⟨coef, c1, c2, _⟩ := hall 0 0 (by omega) (by omega)
    have hcoef : coef = ⟨814294, 8144, -940, 808, -21583, 226⟩ := (Option.some.inj c1).symm
    subst hcoef
    rw [c2 rfl]
    decide

/-- C6: for a speedo id of at least 1 the constructor selects the extended
table `gm20b_na_cvb_coef` and `vid_nr = 13`, otherwise the legacy table
`gm20b_cvb_coef` and `vid_nr = 12`; `vid_nr` is the length of the selected
table, and it is what the constructor leaves in `volt->vid_nr` for every
accepted speedo id. -/
theorem C6_table_selection (id : Int) :
    (1 ≤ id → select_coef_table id = (gm20b_na_cvb_coef, 13)) ∧
    (id < 1 → select_coef_table id = (gm20b_cvb_coef, 12)) ∧
    (select_coef_table id).2 = (select_coef_table id).1.length ∧
    ∀ (M : Int) (rv : Int → Int) (cv : cvb_coef → Int → Int → Int) (trips : tegra210_trips)
      (s : Int) (p : gk20a_volt_priv) (c : Int) (p' : gk20a_volt_priv),
      id ≤ MAX_SPEEDO → gm20b_volt_ctor M rv cv trips id s p = some (c, p') →
      p'.vid_nr = (select_coef_table id).1.length := by
  refine ⟨?_, ?_, select_coef_table_length id, ?_⟩
  · intro h
    unfold select_coef_table
    simp only [ge_iff_le, h, if_true]
    rfl
  · intro h
    unfold select_coef_table
    simp only [ge_iff_le, not_le.mpr h, if_false]
    rfl
  · intro M rv cv trips s p c p' hid h
    rw [ctor_vid_nr M rv cv trips id s p c p' h hid]
    exact select_coef_table_length id

/-- C6 at speedo id 1, on the run of `demo_success_na`: 13 steps. -/
theorem C6_witness :
    select_coef_table 1 = (gm20b_na_cvb_coef, 13) ∧
      ∃ p', gm20b_volt_ctor 8 (step_round_voltage [840000, 950000, 2000000])
        (legacy_calc_voltage 100) demo_trips 1 0 priv_zero = some (0, p') ∧
        p'.vid_nr = 13 := by
  obtain ⟨p', hp'⟩ := demo_success_na
  have h := C6_table_selection 1
  exact ⟨h.1 (by decide), p', hp',
    h.2.2.2 8 _ _ demo_trips 0 priv_zero 0 p' (by decide) hp'⟩

/-- C7, as stated, fails: with speedo id 0, speedo value 0 and a regulator with
the steps 0.95 V and 2 V, the rounding fails at zone 0, step 4 (2049049 uV) and
the constructor returns `-EINVAL`, but the cell `scale_table[0][0]`, which was
`{0, 0}` before the call, holds `{2000000, 0}` after it. -/
theorem C7_counterexample :
    (gm20b_volt_ctor 8 (step_round_voltage [950000, 2000000])
        (legacy_calc_voltage 100) demo_trips 0 0 priv_zero).map
      (fun r => (r.1, r.2.scale_table 0 0, r.2.scale_table 0 3, r.2.scale_table 0 4)) =
      some (-22, ⟨2000000, 0⟩, ⟨2000000, 3⟩, ⟨0, 0⟩) ∧
    priv_zero.scale_table 0 0 = ⟨0, 0⟩ := by
  decide

/-- C7, amended: every failure of the constructor leaves `volt->vid` as it was
before the call.  A failure before the loops (unsupported speedo id, failed
rounding of vmin or of the floor, thermal table too large) also leaves the
scale table as it was.  A rounding failure inside the loops, at zone `jf` and
step `kf`, returns the negative value of that rounding and leaves the scale
table with the cells of the pairs before `(jf, kf)` in row-major order built
and every other cell as it was. -/
theorem C7_failure_effects (M : Int) (rv : Int → Int) (cv : cvb_coef → Int → Int → Int)
    (trips : tegra210_trips) (id s : Int) (p : gk20a_volt_priv) (c : Int)
    (p' : gk20a_volt_priv) (h : gm20b_volt_ctor M rv cv trips id s p = some (c, p'))
    (hc : c ≠ 0) :
    p'.vid = p.vid ∧
    (((id > MAX_SPEEDO ∨ ∃ v, array_read speedo_to_vmin id = some v ∧
          (rv v < 0 ∨ rv TEGRA210_GPU_THERM_VFLOOR < 0 ∨ 5 > M)) ∧
        p'.scale_table = p.scale_table) ∨
     ∃ (v : Int) (jf kf : Nat) (coef : cvb_coef), array_read speedo_to_vmin id = some v ∧
        0 ≤ rv v ∧
        0 ≤ rv TEGRA210_GPU_THERM_VFLOOR ∧ 5 ≤ M ∧
        jf < 5 ∧ kf < (select_coef_table id).2 ∧
        (select_coef_table id).1[kf]? = some coef ∧ c = rv (cv coef s jf) ∧ c < 0 ∧
        (∀ j k, k < (select_coef_table id).2 → before j k jf kf →
          cell_built rv cv (select_coef_table id).1 s (rv v)
            (rv TEGRA210_GPU_THERM_VFLOOR) p' j k) ∧
        (∀ j k, ¬(k < (select_coef_table id).2 ∧ before j k jf kf) →
          p'.scale_table j k = p.scale_table j k)) :=
  ctor_failure_table M rv cv trips id s p c p' h hc

/-- C7, amended, on the run of `demo_failure`: `volt->vid` is untouched. -/
theorem C7_witness :
    ∃ p', gm20b_volt_ctor 8 (step_round_voltage [950000, 2000000])
        (legacy_calc_voltage 100) demo_trips 0 0 priv_zero = some (-22, p') ∧
      p'.vid = priv_zero.vid := by
  obtain ⟨p', hp'⟩ := demo_failure
  exact ⟨p', hp', (C7_failure_effects 8 _ _ demo_trips 0 0 priv_zero (-22) p' hp'
    (by decide)).1⟩

/-- C8: when the constructor returns 0, the active zone `therm_idx` is 0 and
`volt->vid` equals row 0 of the scale table at every step `i < vid_nr`, in
`uv` and in `vid`. -/
theorem C8_active_row (M : Int) (rv : Int → Int) (cv : cvb_coef → Int → Int → Int)
    (trips : tegra210_trips) (id s : Int) (p p' : gk20a_volt_priv)
    (h : gm20b_volt_ctor M rv cv trips id s p = some (0, p')) :
    p'.therm_idx = 0 ∧
      ∀ i, i < p'.vid_nr →
        (p'.vid i).uv = (p'.scale_table 0 i).uv ∧ (p'.vid i).vid = (p'.scale_table 0 i).vid := by
  obtain ⟨v, _, _, _, _, _, _, a3, a4, _, _⟩ := ctor_success_table M rv cv trips id s p p' h
  refine ⟨a3, ?_⟩
  intro i _
  rw [a4]
  exact ⟨rfl, rfl⟩

/-- C8 on the run of `demo_success`. -/
theorem C8_witness :
    ∃ p', gm20b_volt_ctor 8 (step_round_voltage [950000, 2000000, 3000000])
        (legacy_calc_voltage 100) demo_trips 0 0 priv_zero = some (0, p') ∧
      p'.therm_idx = 0 ∧
      ∀ i, i < p'.vid_nr →
        (p'.vid i).uv = (p'.scale_table 0 i).uv ∧ (p'.vid i).vid = (p'.scale_table 0 i).vid := by
  obtain ⟨p', hp'⟩ := demo_success
  exact ⟨p', hp', C8_active_row 8 _ _ demo_trips 0 0 priv_zero p' hp'⟩

/-- C9, as stated, fails: with speedo id 0, the monotone quantizer that rounds
up to the next multiple of 10 mV and the legacy curve, the constructor returns
0 and the row of zone 1 decreases from step 0 (980000 uV) to step 1
(960000 uV); so for the curve as the specification writes it (divisor 1) at
speedo value 40, and for the divisor 100 at speedo value 4000.  The raw curve
values are 972866 and 956929 uV. -/
theorem C9_counterexample :
    (∀ a b : Int, a ≤ b → grid_round_voltage a ≤ grid_round_voltage b) ∧
    (gm20b_volt_ctor 8 grid_round_voltage (legacy_calc_voltage 1) demo_trips 0 40
        priv_zero).map
      (fun r => (r.1, (r.2.scale_table 1 0).uv, (r.2.scale_table 1 1).uv)) =
      some (0, 980000, 960000) ∧
    (gm20b_volt_ctor 8 grid_round_voltage (legacy_calc_voltage 100) demo_trips 0 4000
        priv_zero).map
      (fun r => (r.1, (r.2.scale_table 1 0).uv, (r.2.scale_table 1 1).uv)) =
      some (0, 980000, 960000) ∧
    legacy_calc_voltage 1 ⟨1786666, -85625, 1632, 0, 0, 0⟩ 40 1 = 972866 ∧
    legacy_calc_voltage 1 ⟨1846729, -87525, 1632, 0, 0, 0⟩ 40 1 = 956929 := by
  refine ⟨grid_round_voltage_mono, ?_, ?_, ?_, ?_⟩ <;> decide

/-- C9, amended: with speedo id 0, the legacy curve with a divisor `s_scale ≥ 1`
and a quantizer that is monotone non-decreasing (on the voltages it rounds
without error), for every speedo value of at most `31 * s_scale` and every
zone `j`, the row the constructor builds is non-decreasing across the steps. -/
theorem C9_legacy_rows_monotone (M s_scale : Int) (rv : Int → Int) (trips : tegra210_trips)
    (s : Int) (p p' : gk20a_volt_priv) (hd : 1 ≤ s_scale) (hs : s ≤ 31 * s_scale)
    (hmono : ∀ a b, a ≤ b → 0 ≤ rv a → 0 ≤ rv b → rv a ≤ rv b)
    (h : gm20b_volt_ctor M rv (legacy_calc_voltage s_scale) trips 0 s p = some (0, p')) :
    ∀ j i, j < p'.therm_nr → i + 1 < p'.vid_nr →
      (p'.scale_table j i).uv ≤ (p'.scale_table j (i + 1)).uv := by
  refine rows_monotone M rv (legacy_calc_voltage s_scale) trips 0 s p p' h hmono ?_
  intro j i a b ha hb
  obtain ⟨e1, e2, e3, e4⟩ := gm20b_cvb_coef_steps i a b ha hb
  exact legacy_step_le s_scale s a b j j hd hs e1 e2 e3 e4

/-- C9, amended, on the run of `demo_success` (speedo value 0, divisor 100). -/
theorem C9_witness :
    ∃ p', gm20b_volt_ctor 8 (step_round_voltage [950000, 2000000, 3000000])
        (legacy_calc_voltage 100) demo_trips 0 0 priv_zero = some (0, p') ∧
      ∀ j i, j < p'.therm_nr → i + 1 < p'.vid_nr →
        (p'.scale_table j i).uv ≤ (p'.scale_table j (i + 1)).uv := by
  obtain ⟨p', hp'⟩ := demo_success
  exact ⟨p', hp', C9_legacy_rows_monotone 8 100 _ demo_trips 0 priv_zero p' (by decide)
    (by decide) (step_round_voltage_mono [950000, 2000000, 3000000]) hp'⟩

/-- C10: with speedo id 0 and speedo value 0, row 0 of the legacy table is
`{1786666, -85625, 1632}`, the legacy curve yields 1786666 at step 0 whatever
its divisor, `speedo_to_vmin[0]` is 950000, and in every zone the cell of
step 0 of a table built with the step quantizer holds
`max(round_voltage(1786666), 950000)`. -/
theorem C10_concrete_scenario :
    gm20b_cvb_coef[0]? = some ⟨1786666, -85625, 1632, 0, 0, 0⟩ ∧
    (∀ s_scale j : Int,
      legacy_calc_voltage s_scale ⟨1786666, -85625, 1632, 0, 0, 0⟩ 0 j = 1786666) ∧
    array_read speedo_to_vmin 0 = some 950000 ∧
    ∀ (M s_scale : Int) (steps : List Int) (trips : tegra210_trips) (p p' : gk20a_volt_priv),
      gm20b_volt_ctor M (step_round_voltage steps) (legacy_calc_voltage s_scale) trips 0 0 p =
        some (0, p') →
      ∀ j, j < p'.therm_nr →
        (p'.scale_table j 0).uv = max (step_round_voltage steps 1786666) 950000 := by
  have hraw : ∀ s_scale j : Int,
      legacy_calc_voltage s_scale ⟨1786666, -85625, 1632, 0, 0, 0⟩ 0 j = 1786666 := by
    intro s_scale j
    simp [legacy_calc_voltage]
  refine ⟨rfl, hraw, rfl, ?_⟩
  intro M s_scale steps trips p p' h j hj
  obtain ⟨v, hv, hvmin, _, _, a1, a2, _, _, hw, _⟩ :=
    ctor_success_table M _ _ trips 0 0 p p' h
  have e : v = 950000 := (Option.some.inj hv).symm
  subst e
  rw [a1] at hj
  obtain ⟨coef, c1, c2, c3⟩ := hw j 0 hj (by decide)
  have hcoef : coef = ⟨1786666, -85625, 1632, 0, 0, 0⟩ := (Option.some.inj c1).symm
  subst hcoef
  rw [hraw] at c2 c3
  obtain ⟨k1, k2, _⟩ := step_round_voltage_spec steps 1786666 c2
  obtain ⟨_, _, m3⟩ := step_round_voltage_spec steps 950000 hvmin
  have hle : step_round_voltage steps 950000 ≤ step_round_voltage steps 1786666 :=
    m3 _ k2 (by omega)
  rw [c3, built_uv_eq]
  have hfl : TEGRA210_GPU_THERM_VFLOOR = 950000 := rfl
  rw [hfl]
  have e1 : max (step_round_voltage steps 1786666) (step_round_voltage steps 950000) =
      step_round_voltage steps 1786666 := max_eq_left hle
  have e2 : max (step_round_voltage steps 1786666) 950000 =
      step_round_voltage steps 1786666 := max_eq_left (by omega)
  rw [e1, e2]
  split
  · exact max_eq_left hle
  · rfl

/-- C10 on the run of `demo_success`: the cell of step 0 holds 2000000 uV. -/
theorem C10_witness :
    ∃ p', gm20b_volt_ctor 8 (step_round_voltage [950000, 2000000, 3000000])
        (legacy_calc_voltage 100) demo_trips 0 0 priv_zero = some (0, p') ∧
      ∀ j, j < p'.therm_nr → (p'.scale_table j 0).uv = 2000000 := by
  obtain ⟨p', hp'⟩ := demo_success
  refine ⟨p', hp', ?_⟩
  intro j hj
  rw [C10_concrete_scenario.2.2.2 8 100 [950000, 2000000, 3000000] demo_trips priv_zero p'
    hp' j hj]
  decide

/-- C11: the curve evaluator of the specification takes the coefficients of
the step and the speedo value and no zone, so the raw voltage of the cell
`(j, i)` is the same in every zone; and when the constructor returns 0 with
such an evaluator, for any two zones `j, k ≥ 1` the cells `scale_table[j][i]`
and `scale_table[k][i]` are equal at every step `i`. -/
theorem C11_zone_independence (M : Int) (rv : Int → Int) (evaluate : cvb_coef → Int → Int)
    (trips : tegra210_trips) (id s : Int) (p p' : gk20a_volt_priv) :
    (∀ (coef : cvb_coef) (j k : Int),
      spec_calc_voltage evaluate coef s j = spec_calc_voltage evaluate coef s k) ∧
    (gm20b_volt_ctor M rv (spec_calc_voltage evaluate) trips id s p = some (0, p') →
      ∀ j k i, 1 ≤ j → 1 ≤ k → j < p'.therm_nr → k < p'.therm_nr → i < p'.vid_nr →
        p'.scale_table j i = p'.scale_table k i) := by
  refine ⟨fun _ _ _ => rfl, ?_⟩
  intro h
  exact cells_zone_indep M rv (spec_calc_voltage evaluate) trips id s p p' h
    (fun _ _ _ => rfl)

/-- C11 on the run of `demo_success_na`, whose curve is the legacy polynomial
with divisor 100: the rows of the zones 1 to 4 are equal. -/
theorem C11_witness :
    ∃ p', gm20b_volt_ctor 8 (step_round_voltage [840000, 950000, 2000000])
        (spec_calc_voltage (fun coef speedo => legacy_calc_voltage 100 coef speedo 0))
        demo_trips 1 0 priv_zero = some (0, p') ∧
      ∀ j k i, 1 ≤ j → 1 ≤ k → j < p'.therm_nr → k < p'.therm_nr → i < p'.vid_nr →
        p'.scale_table j i = p'.scale_table k i := by
  obtain ⟨p', hp'⟩ := demo_success_na
  have hp : gm20b_volt_ctor 8 (step_round_voltage [840000, 950000, 2000000])
      (spec_calc_voltage (fun coef speedo => legacy_calc_voltage 100 coef speedo 0))
      demo_trips 1 0 priv_zero = some (0, p') := hp'
  exact ⟨p', hp, (C11_zone_independence 8 _ _ demo_trips 1 0 priv_zero p').2 hp⟩

/-- C12: when the constructor returns 0, every cell carries its column as step
index, `scale_table[j][i].vid = i` for `j < therm_nr` and `i < vid_nr`, so the
`vid` values of a row are `0, 1, ..., vid_nr - 1` in this order. -/
theorem C12_vid_is_column (M : Int) (rv : Int → Int) (cv : cvb_coef → Int → Int → Int)
    (trips : tegra210_trips) (id s : Int) (p p' : gk20a_volt_priv)
    (h : gm20b_volt_ctor M rv cv trips id s p = some (0, p')) :
    (∀ j i, j < p'.therm_nr → i < p'.vid_nr → (p'.scale_table j i).vid = (i : Int)) ∧
    ∀ j, j < p'.therm_nr →
      (List.range p'.vid_nr).map (fun (i : Nat) => (p'.scale_table j i).vid) =
        (List.range p'.vid_nr).map (fun (i : Nat) => Int.ofNat i) := by
  have hall := cells_vid M rv cv trips id s p p' h
  refine ⟨hall, ?_⟩
  intro j hj
  apply List.map_congr_left
  intro i hi
  exact hall j i hj (List.mem_range.mp hi)

/-- C12 on the run of `demo_success`. -/
theorem C12_witness :
    ∃ p', gm20b_volt_ctor 8 (step_round_voltage [950000, 2000000, 3000000])
        (legacy_calc_voltage 100) demo_trips 0 0 priv_zero = some (0, p') ∧
      ∀ j i, j < p'.therm_nr → i < p'.vid_nr → (p'.scale_table j i).vid = (i : Int) := by
  obtain ⟨p', hp'⟩ := demo_success
  exact ⟨p', hp', (C12_vid_is_column 8 _ _ demo_trips 0 0 priv_zero p' hp').1⟩

/-- C15: the legacy table has 12 rows, the extended table 13, and in both the
coefficient `c0` grows strictly from every row to the next. -/
theorem C15_c0_strictly_increasing :
    gm20b_cvb_coef.length = 12 ∧ gm20b_na_cvb_coef.length = 13 ∧
    List.Chain' (fun a b : cvb_coef => a.c0 < b.c0) gm20b_cvb_coef ∧
    List.Chain' (fun a b : cvb_coef => a.c0 < b.c0) gm20b_na_cvb_coef := by
  refine ⟨rfl, rfl, ?_, ?_⟩
  · simp [gm20b_cvb_coef]
  · simp [gm20b_na_cvb_coef]

/-- C13, at the input that breaks it and everywhere else.  With speedo id -1
the range check passes, `speedo_to_vmin` is read below its first entry and the
constructor has no defined return value, neither 0 nor a negative error.  For
every speedo id the constructor returns 0 exactly when the id is at most
`MAX_SPEEDO`, the quantizer fails neither on `speedo_to_vmin[id]` nor on the
floor nor on any curve value of a zone `j < therm_nr` and a step `i < vid_nr`,
and `therm_nr = 5` is at most `MAX_THERMAL_LIMITS`; a returned value other
than 0 is negative; and for every speedo id of at least 0 a value is
returned. -/
theorem C13_success_characterisation (M : Int) (rv : Int → Int)
    (cv : cvb_coef → Int → Int → Int) (trips : tegra210_trips) (id s : Int)
    (p : gk20a_volt_priv) :
    (¬ (-1 : Int) > MAX_SPEEDO ∧ array_read speedo_to_vmin (-1) = none ∧
      gm20b_volt_ctor M rv cv trips (-1) s p = none) ∧
    ((∃ p', gm20b_volt_ctor M rv cv trips id s p = some (0, p')) ↔
      id ≤ MAX_SPEEDO ∧ ∃ v, array_read speedo_to_vmin id = some v ∧ 0 ≤ rv v ∧
        0 ≤ rv TEGRA210_GPU_THERM_VFLOOR ∧ 5 ≤ M ∧
        ∀ (j i : Nat) (coef : cvb_coef), j < 5 →
          (select_coef_table id).1[i]? = some coef → 0 ≤ rv (cv coef s j)) ∧
    (∀ c p', gm20b_volt_ctor M rv cv trips id s p = some (c, p') → c ≠ 0 → c < 0) ∧
    (0 ≤ id → ∃ c p', gm20b_volt_ctor M rv cv trips id s p = some (c, p')) :=
  ⟨ctor_negative_id M rv cv trips (-1) s p (by decide),
    ctor_zero_iff M rv cv trips id s p,
    fun c p' h hc => ctor_error_negative M rv cv trips id s p c p' h hc,
    fun h0 => ctor_returns M rv cv trips id s p h0⟩

/-- C13 at speedo id 0, on the inputs of `demo_failure`: a value is returned. -/
theorem C13_witness :
    (0 : Int) ≤ 0 ∧
      ∃ c p', gm20b_volt_ctor 8 (step_round_voltage [950000, 2000000])
        (legacy_calc_voltage 100) demo_trips 0 0 priv_zero = some (c, p') :=
  ⟨le_refl 0, (C13_success_characterisation 8 (step_round_voltage [950000, 2000000])
    (legacy_calc_voltage 100) demo_trips 0 0 priv_zero).2.2.2 (le_refl 0)⟩

/-- C14: when the rounding of vmin fails the constructor returns `-EINVAL`,
whatever negative value the quantizer produced; when the rounding of the floor
fails it returns the value of that rounding; and when a rounding inside the
loops fails, it returns the negative value of the rounding at the first pair
(zone, step) that fails, in row-major order (zones outside, steps inside). -/
theorem C14_error_code_propagation (M : Int) (rv : Int → Int)
    (cv : cvb_coef → Int → Int → Int) (trips : tegra210_trips) (id s : Int)
    (p : gk20a_volt_priv) (v : Int) (hv : array_read speedo_to_vmin id = some v) :
    (rv v < 0 → ∃ p', gm20b_volt_ctor M rv cv trips id s p = some (-EINVAL, p')) ∧
    (0 ≤ rv v → rv TEGRA210_GPU_THERM_VFLOOR < 0 →
      ∃ p', gm20b_volt_ctor M rv cv trips id s p =
        some (rv TEGRA210_GPU_THERM_VFLOOR, p')) ∧
    (0 ≤ rv v → 0 ≤ rv TEGRA210_GPU_THERM_VFLOOR → 5 ≤ M →
      ∀ (jf kf : Nat) (coef : cvb_coef), jf < 5 →
        (select_coef_table id).1[kf]? = some coef → rv (cv coef s jf) < 0 →
        (∀ (j k : Nat) (coef' : cvb_coef), before j k jf kf →
          (select_coef_table id).1[k]? = some coef' → 0 ≤ rv (cv coef' s j)) →
        ∃ p', gm20b_volt_ctor M rv cv trips id s p = some (rv (cv coef s jf), p')) := by
  refine ⟨?_, ?_, ?_⟩
  · intro a
    rw [ctor_supported M rv cv trips id s p v hv]
    simp only [a, if_true]
    exact ⟨_, rfl⟩
  · intro a b
    rw [ctor_supported M rv cv trips id s p v hv]
    simp only [not_lt.mpr a, if_false, b, if_true]
    exact ⟨_, rfl⟩
  · intro a b d jf kf coef hjf hc hneg hfirst
    exact ctor_first_failure M rv cv trips id s p v hv a b d jf kf coef hjf hc hneg hfirst

/-- C14 on the inputs of `demo_failure`: the first rounding that fails is the
one of zone 0, step 4 (2049049 uV), and its value -22 is returned. -/
theorem C14_witness :
    step_round_voltage [950000, 2000000]
        (legacy_calc_voltage 100 ⟨2049049, -93215, 1632, 0, 0, 0⟩ 0 0) = -22 ∧
    ∃ p', gm20b_volt_ctor 8 (step_round_voltage [950000, 2000000])
        (legacy_calc_voltage 100) demo_trips 0 0 priv_zero =
      some (step_round_voltage [950000, 2000000]
        (legacy_calc_voltage 100 ⟨2049049, -93215, 1632, 0, 0, 0⟩ 0 0), p') := by
  refine ⟨by decide, ?_⟩
  refine (C14_error_code_propagation 8 (step_round_voltage [950000, 2000000])
    (legacy_calc_voltage 100) demo_trips 0 0 priv_zero 950000 rfl).2.2 (by decide)
    (by decide) (by decide) 0 4 ⟨2049049, -93215, 1632, 0, 0, 0⟩ (by decide) rfl
    (by decide) ?_
  intro j k coef' hb hk
  have hk4 : j = 0 ∧ k < 4 := by
    unfold before at hb
    omega
  obtain ⟨hj, hk4⟩ := hk4
  subst hj
  interval_cases k <;>
    (have e := (Option.some.inj hk).symm
     subst e
     decide)

/-- C16: every entry of `speedo_to_vmin` is at most
`TEGRA210_GPU_THERM_VFLOOR`, with equality for speedo id 0 only.  Hence, with
a quantizer that is monotone non-decreasing (on the voltages it rounds without
error), a table the constructor built has `vmin ≤ vfloor` and its cells of
zone 0 hold `max(q, vfloor)`; and for speedo id 0, with any quantizer, the
cells of zone 0 hold `max(q, vmin)`: the floor changes none of them. -/
theorem C16_vmin_le_vfloor :
    (∀ id v, array_read speedo_to_vmin id = some v →
      v ≤ TEGRA210_GPU_THERM_VFLOOR ∧ (v = TEGRA210_GPU_THERM_VFLOOR ↔ id = 0)) ∧
    (∀ (M : Int) (rv : Int → Int) (cv : cvb_coef → Int → Int → Int) (trips : tegra210_trips)
        (id s : Int) (p p' : gk20a_volt_priv),
      (∀ a b, a ≤ b → 0 ≤ rv a → 0 ≤ rv b → rv a ≤ rv b) →
      gm20b_volt_ctor M rv cv trips id s p = some (0, p') →
      ∃ v, array_read speedo_to_vmin id = some v ∧
        rv v ≤ rv TEGRA210_GPU_THERM_VFLOOR ∧
        ∀ i, i < p'.vid_nr → ∃ coef, (select_coef_table id).1[i]? = some coef ∧
          (p'.scale_table 0 i).uv =
            max (rv (cv coef s 0)) (rv TEGRA210_GPU_THERM_VFLOOR)) ∧
    (∀ (M : Int) (rv : Int → Int) (cv : cvb_coef → Int → Int → Int) (trips : tegra210_trips)
        (s : Int) (p p' : gk20a_volt_priv),
      gm20b_volt_ctor M rv cv trips 0 s p = some (0, p') →
      ∃ v, array_read speedo_to_vmin 0 = some v ∧
        ∀ i, i < p'.vid_nr → ∃ coef, (select_coef_table 0).1[i]? = some coef ∧
          (p'.scale_table 0 i).uv = max (rv (cv coef s 0)) (rv v)) := by
  have htab : ∀ id v, array_read speedo_to_vmin id = some v →
      v ≤ TEGRA210_GPU_THERM_VFLOOR ∧ (v = TEGRA210_GPU_THERM_VFLOOR ↔ id = 0) := by
    intro id v hv
    obtain ⟨h0, h4⟩ := array_read_speedo_to_vmin id v hv
    unfold MAX_SPEEDO at h4
    interval_cases id <;>
      (have e := (Option.some.inj hv).symm
       subst e
       decide)
  refine ⟨htab, ?_, ?_⟩
  · intro M rv cv trips id s p p' hmono h
    obtain ⟨v, hv, a, b, _, _, a2, _, _, hw, _⟩ :=
      ctor_success_table M rv cv trips id s p p' h
    have hle : rv v ≤ rv TEGRA210_GPU_THERM_VFLOOR := hmono _ _ (htab id v hv).1 a b
    refine ⟨v, hv, hle, ?_⟩
    intro i hi
    rw [a2] at hi
    obtain ⟨coef, c1, _, c3⟩ := hw 0 i (by omega) hi
    refine ⟨coef, c1, ?_⟩
    rw [c3, built_uv_eq]
    simp only [if_true, Nat.cast_zero]
    rcases le_total (rv (cv coef s 0)) (rv v) with hqv | hqv
    · rw [max_eq_right hqv, max_eq_right hle, max_eq_right (le_trans hqv hle)]
    · rw [max_eq_left hqv]
  · intro M rv cv trips s p p' h
    obtain ⟨v, hv, _, _, _, _, a2, _, _, hw, _⟩ :=
      ctor_success_table M rv cv trips 0 s p p' h
    refine ⟨v, hv, ?_⟩
    have e : v = 950000 := (Option.some.inj hv).symm
    intro i hi
    rw [a2] at hi
    obtain ⟨coef, c1, _, c3⟩ := hw 0 i (by omega) hi
    refine ⟨coef, c1, ?_⟩
    have hfl : TEGRA210_GPU_THERM_VFLOOR = v := by rw [e]; rfl
    rw [c3, built_uv_eq, hfl]
    simp only [if_true, Nat.cast_zero]
    exact max_eq_left (le_max_right _ _)

/-- C16 on the run of `demo_success_na` (speedo id 1): `vmin` is 840000,
`vfloor` is 950000, and the cells of zone 0 hold `max(q, vfloor)`. -/
theorem C16_witness :
    ∃ p', gm20b_volt_ctor 8 (step_round_voltage [840000, 950000, 2000000])
        (legacy_calc_voltage 100) demo_trips 1 0 priv_zero = some (0, p') ∧
      ∃ v, array_read speedo_to_vmin 1 = some v ∧
        step_round_voltage [840000, 950000, 2000000] v ≤
          step_round_voltage [840000, 950000, 2000000] TEGRA210_GPU_THERM_VFLOOR ∧
        ∀ i, i < p'.vid_nr → ∃ coef, (select_coef_table 1).1[i]? = some coef ∧
          (p'.scale_table 0 i).uv =
            max (step_round_voltage [840000, 950000, 2000000]
                (legacy_calc_voltage 100 coef 0 0))
              (step_round_voltage [840000, 950000, 2000000] TEGRA210_GPU_THERM_VFLOOR) := by
  obtain ⟨p', hp'⟩ := demo_success_na
  exact ⟨p', hp', C16_vmin_le_vfloor.2.1 8 _ _ demo_trips 1 0 priv_zero p'
    (step_round_voltage_mono [840000, 950000, 2000000]) hp'⟩

/-- C17, at the input that breaks it: the speedo id -1 passes the range check
of the constructor (`-1 > MAX_SPEEDO` is false), the index -1 is not in
`0 .. MAX_SPEEDO`, the read of `speedo_to_vmin` misses the table of 5 entries,
and the constructor has no defined result, whatever its other inputs are. -/
theorem C17_negative_speedo_id :
    ¬ (-1 : Int) > MAX_SPEEDO ∧ ¬ (0 ≤ (-1 : Int) ∧ (-1 : Int) ≤ MAX_SPEEDO) ∧
    speedo_to_vmin.length = 5 ∧ array_read speedo_to_vmin (-1) = none ∧
    ∀ (M : Int) (rv : Int → Int) (cv : cvb_coef → Int → Int → Int) (trips : tegra210_trips)
      (s : Int) (p : gk20a_volt_priv), gm20b_volt_ctor M rv cv trips (-1) s p = none := by
  refine ⟨by decide, by decide, rfl, rfl, ?_⟩
  intro M rv cv trips s p
  exact (ctor_negative_id M rv cv trips (-1) s p (by decide)).2.2

end Gm20bVolt
